import Mathlib

/-!
# Verification of the mocap capture/persistence/export core

This file gives a shallow embedding, in Lean 4, of the core data model and
operations of the mocap repository:

* the take metadata record and the key/value persistence repository
  (`Take`, `takeRepo.appendFrames`, `takeRepo.finalizeTake`);
* the recorder state machine with its chunked, overlap-protected flush
  (`useRecorder` : `pushFrame`, `flush`, `stopRecording`), modelled as a
  labelled transition system whose atomic steps are the code regions between
  `await` suspension points of the single-threaded cooperative scheduler;
* the One-Euro adaptive low-pass filter and the confidence-gated pose
  smoother (`OneEuroFilter1D`, `PoseSmoother`);
* the BVH exporter (`BVHWriter.fromMediapipePoseFrames` and the
  `TakeExporter` internal `buildBVH`), including the quaternion algebra.

JavaScript numbers are modelled as rationals where the code is exact
arithmetic (recorder, repository) and as real numbers where the code uses
transcendental library functions (filters, quaternion/Euler conversion).
Theorems about the embedding settle the specification claims.
-/

namespace Mocap

/-! ## Take metadata (models/Take.ts)

The `Take` record: metadata for one recording session. -/

structure Take where
  id : String
  projectId : Option String
  name : String
  createdAt : ℚ
  updatedAt : ℚ
  frameCount : ℕ
  durationMs : ℚ
  avgFps : ℚ
  chunkCount : ℕ
  schemaVersion : ℕ
  deriving Repr, DecidableEq

/-- One pose frame as the repository sees it: a timestamp in milliseconds and
the flattened landmark quadruples. -/
structure PoseFrameQ where
  ts : ℚ
  landmarks : List ℚ
  deriving Repr, DecidableEq

/-! ## Persistence repository (infra/persistence/takeRepo.ts)

The MMKV-backed repository stores take metadata under `take:<id>:meta` and
chunk records under `take:<id>:chunk:<n>`.  We model the two key families as
association lists (newest binding first, exactly the overwrite-by-rewrite
behaviour of `setJson`). -/

/-- A frame as stored inside a chunk record (`StoredFrame`). -/
structure StoredFrame where
  ts : ℚ
  landmarks : List ℚ
  deriving Repr, DecidableEq

/-- A persisted chunk record (`StoredChunk`). -/
structure StoredChunk where
  n : ℕ
  startTs : ℚ
  endTs : ℚ
  frames : List StoredFrame
  deriving Repr, DecidableEq

/-- The key/value store visible to `takeRepo`: take metadata plus chunk
records.  (The `takes:index` key is not modelled; no claim concerns it.) -/
structure TakeStore where
  metas : List (String × Take)
  chunks : List ((String × ℕ) × StoredChunk)
  deriving Repr, DecidableEq

namespace takeRepo

/-- Model of `takeRepo.getTake` : look the metadata up under `take:<id>:meta`. -/
def getTake (st : TakeStore) (id : String) : Option Take :=
  st.metas.lookup id

/-- Model of `setJson(K.meta(id), t)` : overwrite the metadata binding. -/
def setMeta (st : TakeStore) (id : String) (t : Take) : TakeStore :=
  { st with metas := (id, t) :: st.metas }

/-- Model of `setJson(K.chunk(id, n), c)` : overwrite the chunk binding. -/
def setChunk (st : TakeStore) (id : String) (n : ℕ) (c : StoredChunk) : TakeStore :=
  { st with chunks := ((id, n), c) :: st.chunks }

/-- Return record of `appendFrames`. -/
structure AppendResult where
  startTs : ℚ
  endTs : ℚ
  frameCount : ℕ
  deriving Repr, DecidableEq

/-- Model of `takeRepo.appendFrames(takeId, chunkNumber, frames)`.

Source (src/unnamed/part_012, lines 80-117): look the take up (throw when
absent); with an empty frame list return zeros without touching the store;
otherwise persist the chunk record and update the metadata
(`frameCount += frames.length`, `chunkCount = max(chunkCount, chunkNumber+1)`,
`updatedAt = Date.now()`; the wall clock is passed in as `now`). -/
def appendFrames (st : TakeStore) (takeId : String) (chunkNumber : ℕ)
    (frames : List PoseFrameQ) (now : ℚ) :
    Except String (AppendResult × TakeStore) :=
  match getTake st takeId with
  | none => .error ("Take not found: " ++ takeId)
  | some take =>
    if frames.length = 0 then
      .ok (⟨0, 0, 0⟩, st)
    else
      let storedFrames : List StoredFrame :=
        frames.map (fun f => ⟨f.ts, f.landmarks⟩)
      let startTs := (storedFrames.headD ⟨0, []⟩).ts
      let endTs := (storedFrames.getLastD ⟨0, []⟩).ts
      let chunk : StoredChunk := ⟨chunkNumber, startTs, endTs, storedFrames⟩
      let st1 := setChunk st takeId chunkNumber chunk
      let next : Take :=
        { take with
          updatedAt := now
          frameCount := take.frameCount + storedFrames.length
          chunkCount := max take.chunkCount (chunkNumber + 1) }
      let st2 := setMeta st1 takeId next
      .ok (⟨startTs, endTs, storedFrames.length⟩, st2)

/-- Model of `takeRepo.finalizeTake(takeId, firstTs, lastTs)`.

Source (src/unnamed/part_012, lines 123-138): `durationMs = max(0, lastTs -
firstTs)`; `avgFps = frameCount / (durationMs / 1000)` when `durationMs > 0`,
else `0`; write the updated metadata back.  `TakeRepo.fs.ts` (lines 135-145)
computes the same fields. -/
def finalizeTake (st : TakeStore) (takeId : String) (firstTs lastTs : ℚ)
    (now : ℚ) : Except String (Take × TakeStore) :=
  match getTake st takeId with
  | none => .error ("Take not found: " ++ takeId)
  | some take =>
    let durationMs := max 0 (lastTs - firstTs)
    let avgFps : ℚ :=
      if durationMs > 0 then (take.frameCount : ℚ) / (durationMs / 1000) else 0
    let next : Take := { take with updatedAt := now, durationMs := durationMs, avgFps := avgFps }
    .ok (next, setMeta st takeId next)

end takeRepo

/-- A concrete stored take used by witnesses. -/
def sampleTake : Take :=
  { id := "t0", projectId := none, name := "Take", createdAt := 1, updatedAt := 1
    frameCount := 30, durationMs := 0, avgFps := 0, chunkCount := 2, schemaVersion := 1 }

/-- A concrete store holding `sampleTake`. -/
def sampleStore : TakeStore :=
  { metas := [("t0", sampleTake)], chunks := [] }

/-- C5: for every stored take, `finalizeTake(takeId, firstTs, lastTs)` sets
`durationMs = max(0, lastTs - firstTs)` and
`avgFps = frameCount / (durationMs / 1000)` when `durationMs > 0`, else
`avgFps = 0`; in particular with `firstTs = 1000`, `lastTs = 2000` and a
stored `frameCount` of 30 it yields `durationMs = 1000` and `avgFps = 30`,
and with `firstTs = lastTs` it yields `avgFps = 0`. -/
theorem takeRepo.finalizeTake_durations (st : TakeStore) (id : String)
    (take : Take) (firstTs lastTs now : ℚ)
    (h : takeRepo.getTake st id = some take) :
    ∃ next st2,
      takeRepo.finalizeTake st id firstTs lastTs now = .ok (next, st2) ∧
      next.durationMs = max 0 (lastTs - firstTs) ∧
      next.avgFps =
        (if max 0 (lastTs - firstTs) > 0 then
          (take.frameCount : ℚ) / (max 0 (lastTs - firstTs) / 1000) else 0) ∧
      next.frameCount = take.frameCount ∧
      (take.frameCount = 30 → firstTs = 1000 → lastTs = 2000 →
        next.durationMs = 1000 ∧ next.avgFps = 30) ∧
      (firstTs = lastTs → next.avgFps = 0) := by
  classical
  set d : ℚ := max 0 (lastTs - firstTs) with hd
  set next : Take :=
    { take with
      updatedAt := now
      durationMs := d
      avgFps := if d > 0 then (take.frameCount : ℚ) / (d / 1000) else 0 } with hnext
  have hfin : takeRepo.finalizeTake st id firstTs lastTs now =
      .ok (next, takeRepo.setMeta st id next) := by
    simp [takeRepo.finalizeTake, h, hnext, hd]
  refine ⟨next, takeRepo.setMeta st id next, hfin, rfl, rfl, rfl, ?_, ?_⟩
  · rintro hc rfl rfl
    have hdval : d = 1000 := by rw [hd]; norm_num
    constructor
    · exact hdval
    · show (if d > 0 then (take.frameCount : ℚ) / (d / 1000) else 0) = 30
      rw [hdval, hc]
      norm_num
  · rintro rfl
    show (if d > 0 then (take.frameCount : ℚ) / (d / 1000) else 0) = 0
    have : d = 0 := by rw [hd]; simp
    rw [this]
    norm_num

/-- Witness for C5: `finalizeTake` on `sampleStore` (frame count 30) with
`firstTs = 1000`, `lastTs = 2000`. -/
theorem takeRepo.finalizeTake_durations_witness :
    ∃ next st2,
      takeRepo.finalizeTake sampleStore "t0" 1000 2000 3 = .ok (next, st2) ∧
      next.durationMs = max 0 (2000 - 1000) ∧
      next.avgFps =
        (if max 0 ((2000 : ℚ) - 1000) > 0 then
          (sampleTake.frameCount : ℚ) / (max 0 ((2000 : ℚ) - 1000) / 1000) else 0) ∧
      next.frameCount = sampleTake.frameCount ∧
      (sampleTake.frameCount = 30 → (1000 : ℚ) = 1000 → (2000 : ℚ) = 2000 →
        next.durationMs = 1000 ∧ next.avgFps = 30) ∧
      ((1000 : ℚ) = 2000 → next.avgFps = 0) :=
  takeRepo.finalizeTake_durations sampleStore "t0" sampleTake 1000 2000 3 (by decide)

/-- C10: `appendFrames(takeId, chunkNumber, frames)` with an empty frame list
on an existing take returns `startTs = 0, endTs = 0, frameCount = 0` and
leaves the whole store unchanged: no chunk record is written and the take's
metadata (frameCount, chunkCount, updatedAt) keeps its previous values. -/
theorem takeRepo.appendFrames_nil (st : TakeStore) (id : String) (take : Take)
    (chunkNumber : ℕ) (now : ℚ)
    (h : takeRepo.getTake st id = some take) :
    takeRepo.appendFrames st id chunkNumber [] now = .ok (⟨0, 0, 0⟩, st) := by
  simp [takeRepo.appendFrames, h]

/-- Witness for C10: appending an empty frame list to `sampleStore`. -/
theorem takeRepo.appendFrames_nil_witness :
    takeRepo.appendFrames sampleStore "t0" 5 [] 99 = .ok (⟨0, 0, 0⟩, sampleStore) :=
  takeRepo.appendFrames_nil sampleStore "t0" sampleTake 5 99 (by decide)

/-! ## Recorder (src/unnamed/part_005, `useRecorder`)

The recorder runs on a single-threaded cooperative scheduler: code between
two `await` suspension points executes atomically, and interleaving can only
happen at those points.  We model the recorder as a labelled transition
system.  One atomic step is one such region.  The `flush` drain loop
(lines 72-115) suspends twice per iteration — at the `setTimeout` yield
(line 95) and inside `await takeRepo.appendFrames` (line 98) — with no state
access between the two, so the model merges them into a single suspension
holding the spliced-out frames and the chunk number that were captured
before the yield.  The `appendFrames` invocation is logged at that
suspension; only resolution events can interleave between the real yield and
the real call, and no claim depends on the log order between a `callAppend`
and a concurrently resolving `finalized`.

A frame is represented by its timestamp (`frame.ts : ℤ`); the recorder never
reads any other part of a frame. -/

namespace Recorder

/-- Status component of `RecorderState` (part_005, lines 18-21). -/
inductive Status
  | idle
  | recording
  | stopping
  deriving Repr, DecidableEq

/-- The suspended flush coroutine: the frames it spliced out of the buffer
(line 91) and the chunk number it read (line 92). -/
structure PendingAppend where
  chunkNo : ℕ
  frames : List ℤ
  deriving Repr, DecidableEq

/-- Continuation state of the (at most one) `stopRecording` call:

* `waitFlush` — the `await flush()` on line 178 started the drain loop, and
  stopRecording resumes only when that loop finishes;
* `readyFinalize` — the `await flush()` returned (either the drain loop
  completed, or the `flush()` call returned immediately because a flush was
  already in flight or there was nothing to do), and the continuation
  (lines 180-195) has not yet run to completion: `finalizeTake` is issued
  and its resolution performs the reset. -/
inductive StopPhase
  | idle
  | waitFlush
  | readyFinalize
  deriving Repr, DecidableEq

/-- Events observed at the persistence port. -/
inductive PortEvent
  | callAppend (chunkNo : ℕ) (frameCount : ℕ)
  | okAppend (chunkNo : ℕ) (frameCount : ℕ)
  | failAppend (chunkNo : ℕ) (frameCount : ℕ)
  | finalized (firstTs lastTs : ℤ)
  deriving Repr, DecidableEq

/-- The recorder state: the React status value, the refs of `useRecorder`,
the coroutine continuations, and two ghost counters (`accepted` counts the
frames `pushFrame` appended to the buffer, line 148; `dropped` counts frames
discarded by the reset on line 188) together with the port event log. -/
structure State where
  status : Status
  takeActive : Bool
  buffer : List ℤ
  chunkNo : ℕ
  firstTs : Option ℤ
  lastTs : Option ℤ
  flushing : Bool
  flushAgain : Bool
  pending : Option PendingAppend
  stopPhase : StopPhase
  accepted : ℕ
  dropped : ℕ
  log : List PortEvent
  deriving Repr, DecidableEq

/-- Result of the synchronous prefix of one `flush()` call: `immediate` when
the call returned without starting a drain (lines 73-76, 78-79, 81-82);
`started` when it entered the drain loop and suspended (lines 84-98). -/
inductive FlushCall
  | immediate
  | started
  deriving Repr, DecidableEq

/-- Synchronous prefix of `flush()` (part_005, lines 72-98).  A JavaScript
async function runs synchronously up to its first `await`: the in-flight
check (line 73) either records the request in the run-again flag, or the
guards on lines 78-82 return, or the call sets the busy flag, splices the
whole buffer, reads the chunk counter and suspends. -/
def flushPrefix (s : State) : State × FlushCall :=
  if s.flushing then ({ s with flushAgain := true }, .immediate)
  else if ¬ s.takeActive then (s, .immediate)
  else if s.buffer.isEmpty then (s, .immediate)
  else
    ({ s with
        flushing := true
        buffer := []
        pending := some ⟨s.chunkNo, s.buffer⟩
        log := s.log ++ [.callAppend s.chunkNo s.buffer.length] },
      .started)

/-- One `pushFrame(frame)` call (part_005, lines 141-164): rejected unless
recording with a live take; otherwise append to the buffer, track first/last
timestamps, and when the buffer reached `chunkFrames` fire `void flush()`
(whose synchronous prefix runs inside this same atomic region). -/
def pushFrame (chunkFrames : ℕ) (s : State) (f : ℤ) : State :=
  if s.status ≠ Status.recording then s
  else if ¬ s.takeActive then s
  else
    let s1 := { s with
      buffer := s.buffer ++ [f]
      firstTs := some (s.firstTs.getD f)
      lastTs := some f
      accepted := s.accepted + 1 }
    if chunkFrames ≤ s1.buffer.length then (flushPrefix s1).1 else s1

/-- One external `flush()` call: just the synchronous prefix. -/
def callFlush (s : State) : State :=
  (flushPrefix s).1

/-- One `stopRecording()` call up to its first suspension (part_005,
lines 166-178): rejected unless recording with a live take; otherwise the
status moves to `stopping` and `await flush()` runs its synchronous prefix.
When that prefix started the drain loop, stopRecording waits for the loop;
otherwise its continuation is ready to finalize. -/
def callStop (s : State) : State :=
  if s.status ≠ Status.recording then s
  else if ¬ s.takeActive then s
  else
    let s1 := { s with status := Status.stopping }
    match flushPrefix s1 with
    | (s2, .started) => { s2 with stopPhase := StopPhase.waitFlush }
    | (s2, .immediate) => { s2 with stopPhase := StopPhase.readyFinalize }

/-- Resolution of the suspended `appendFrames` call with success (part_005,
lines 98-110, then the loop re-check on lines 86-95): bump the chunk
counter, clear the run-again flag (line 105; the loop re-checks the buffer
either way), and either splice the refilled buffer and suspend again, or
leave the loop — the `finally` clears the busy flag, and a stopRecording
waiting on this loop becomes ready to finalize. -/
def resumeAppendOk (s : State) : State :=
  match s.pending with
  | none => s
  | some p =>
    let s1 := { s with
      log := s.log ++ [PortEvent.okAppend p.chunkNo p.frames.length]
      chunkNo := p.chunkNo + 1
      flushAgain := false }
    if s1.buffer.isEmpty then
      let s2 := { s1 with pending := none, flushing := false }
      if s2.stopPhase = StopPhase.waitFlush then
        { s2 with stopPhase := StopPhase.readyFinalize }
      else s2
    else
      { s1 with
        buffer := []
        pending := some ⟨s1.chunkNo, s1.buffer⟩
        log := s1.log ++ [PortEvent.callAppend s1.chunkNo s1.buffer.length] }

/-- Resolution of the suspended `appendFrames` call with an error: the
`finally` (lines 111-114) clears both flags, the spliced-out frames are a
discarded local, the chunk counter is not bumped (line 99 is skipped), and
the rejection propagates to the awaiting caller — when that caller is
stopRecording (line 178), it rethrows without finalizing and the status
stays `stopping`. -/
def resumeAppendFail (s : State) : State :=
  match s.pending with
  | none => s
  | some p =>
    let s1 := { s with
      log := s.log ++ [PortEvent.failAppend p.chunkNo p.frames.length]
      pending := none
      flushing := false
      flushAgain := false }
    if s1.stopPhase = StopPhase.waitFlush then
      { s1 with stopPhase := StopPhase.idle }
    else s1

/-- The stopRecording continuation after its `await flush()` resolved
(part_005, lines 180-195): read the recorded first/last timestamps, let
`finalizeTake` resolve, then reset every ref and return to `idle`.  Frames
still in the buffer at the reset are dropped (ghost counter). -/
def resumeFinalize (s : State) : State :=
  if s.stopPhase = StopPhase.readyFinalize then
    let first := s.firstTs.getD 0
    let last := s.lastTs.getD first
    { s with
      log := s.log ++ [PortEvent.finalized first last]
      takeActive := false
      buffer := []
      chunkNo := 0
      firstTs := none
      lastTs := none
      status := Status.idle
      stopPhase := StopPhase.idle
      dropped := s.dropped + s.buffer.length }
  else s

/-- Schedulable atomic events: the three recorder calls and the three
resolutions the environment (scheduler plus persistence port) can deliver. -/
inductive Op
  | push (f : ℤ)
  | flushReq
  | stopReq
  | appendOk
  | appendFail
  | finalizeDone
  deriving Repr, DecidableEq

/-- One atomic step.  Resolution events with nothing pending are no-ops. -/
def step (chunkFrames : ℕ) (s : State) : Op → State
  | Op.push f => pushFrame chunkFrames s f
  | Op.flushReq => callFlush s
  | Op.stopReq => callStop s
  | Op.appendOk => resumeAppendOk s
  | Op.appendFail => resumeAppendFail s
  | Op.finalizeDone => resumeFinalize s

/-- Run a list of atomic events. -/
def run (chunkFrames : ℕ) (s : State) : List Op → State
  | [] => s
  | op :: ops => run chunkFrames (step chunkFrames s op) ops

/-- The state right after `startRecording` completed (lines 130-136). -/
def init : State :=
  { status := Status.recording, takeActive := true, buffer := [], chunkNo := 0
    firstTs := none, lastTs := none, flushing := false, flushAgain := false
    pending := none, stopPhase := StopPhase.idle, accepted := 0, dropped := 0
    log := [] }

/-! ### Views of the port event log -/

/-- Chunk numbers passed to `appendFrames`, in call order. -/
def callChunks (log : List PortEvent) : List ℕ :=
  log.filterMap fun e =>
    match e with
    | PortEvent.callAppend n _ => some n
    | _ => none

/-- Chunk numbers of the `appendFrames` calls that resolved successfully. -/
def okChunks (log : List PortEvent) : List ℕ :=
  log.filterMap fun e =>
    match e with
    | PortEvent.okAppend n _ => some n
    | _ => none

/-- Total frame count over the successfully persisted chunks. -/
def persistedFrames (log : List PortEvent) : ℕ :=
  (log.map fun e =>
    match e with
    | PortEvent.okAppend _ k => k
    | _ => 0).sum

/-- Total frame count over the failed `appendFrames` calls. -/
def lostFrames (log : List PortEvent) : ℕ :=
  (log.map fun e =>
    match e with
    | PortEvent.failAppend _ k => k
    | _ => 0).sum

/-- A log with no failed persistence call. -/
def NoFail (log : List PortEvent) : Prop :=
  ∀ n k, PortEvent.failAppend n k ∉ log

instance (log : List PortEvent) : Decidable (NoFail log) :=
  decidable_of_iff
    ((log.all fun e =>
      match e with
      | PortEvent.failAppend _ _ => false
      | _ => true) = true)
    (by
      rw [List.all_eq_true]
      constructor
      · intro h n k hmem
        exact absurd (h _ hmem) (by simp)
      · intro h e hmem
        cases e
        case failAppend n k => exact absurd hmem (h n k)
        all_goals rfl)

/-- Frames held by the suspended flush coroutine, if any. -/
def inflight (s : State) : ℕ :=
  match s.pending with
  | some p => p.frames.length
  | none => 0

theorem callChunks_append (a b : List PortEvent) :
    callChunks (a ++ b) = callChunks a ++ callChunks b :=
  List.filterMap_append a b _

theorem okChunks_append (a b : List PortEvent) :
    okChunks (a ++ b) = okChunks a ++ okChunks b :=
  List.filterMap_append a b _

@[simp] theorem callChunks_nil : callChunks [] = [] := rfl

@[simp] theorem callChunks_callAppend (n k : ℕ) :
    callChunks [PortEvent.callAppend n k] = [n] := rfl

@[simp] theorem callChunks_okAppend (n k : ℕ) :
    callChunks [PortEvent.okAppend n k] = [] := rfl

@[simp] theorem callChunks_failAppend (n k : ℕ) :
    callChunks [PortEvent.failAppend n k] = [] := rfl

@[simp] theorem callChunks_finalized (a b : ℤ) :
    callChunks [PortEvent.finalized a b] = [] := rfl

@[simp] theorem okChunks_nil : okChunks [] = [] := rfl

@[simp] theorem okChunks_callAppend (n k : ℕ) :
    okChunks [PortEvent.callAppend n k] = [] := rfl

@[simp] theorem okChunks_okAppend (n k : ℕ) :
    okChunks [PortEvent.okAppend n k] = [n] := rfl

@[simp] theorem okChunks_failAppend (n k : ℕ) :
    okChunks [PortEvent.failAppend n k] = [] := rfl

@[simp] theorem okChunks_finalized (a b : ℤ) :
    okChunks [PortEvent.finalized a b] = [] := rfl

@[simp] theorem persistedFrames_nil : persistedFrames [] = 0 := rfl

@[simp] theorem persistedFrames_callAppend (n k : ℕ) :
    persistedFrames [PortEvent.callAppend n k] = 0 := rfl

@[simp] theorem persistedFrames_okAppend (n k : ℕ) :
    persistedFrames [PortEvent.okAppend n k] = k := by
  simp [persistedFrames]

@[simp] theorem persistedFrames_failAppend (n k : ℕ) :
    persistedFrames [PortEvent.failAppend n k] = 0 := rfl

@[simp] theorem persistedFrames_finalized (a b : ℤ) :
    persistedFrames [PortEvent.finalized a b] = 0 := rfl

@[simp] theorem lostFrames_nil : lostFrames [] = 0 := rfl

@[simp] theorem lostFrames_callAppend (n k : ℕ) :
    lostFrames [PortEvent.callAppend n k] = 0 := rfl

@[simp] theorem lostFrames_okAppend (n k : ℕ) :
    lostFrames [PortEvent.okAppend n k] = 0 := rfl

@[simp] theorem lostFrames_failAppend (n k : ℕ) :
    lostFrames [PortEvent.failAppend n k] = k := by
  simp [lostFrames]

@[simp] theorem lostFrames_finalized (a b : ℤ) :
    lostFrames [PortEvent.finalized a b] = 0 := rfl

theorem persistedFrames_append (a b : List PortEvent) :
    persistedFrames (a ++ b) = persistedFrames a + persistedFrames b := by
  simp [persistedFrames]

theorem lostFrames_append (a b : List PortEvent) :
    lostFrames (a ++ b) = lostFrames a + lostFrames b := by
  simp [lostFrames]

/-! ### The chunk-numbering invariant (claim C1)

On every trace whose persistence calls all succeed, the chunk numbers passed
to `appendFrames` form the gapless, repeat-free sequence `0, 1, 2, ...`.
The inductive invariant ties the log to the coroutine state: the pending
call (if any) carries exactly the next chunk number, and when no call is
pending, `chunkNoRef` equals the number of completed chunks. -/

structure ChunkInv (s : State) : Prop where
  calls : callChunks s.log = List.range (callChunks s.log).length
  pendingSpec : ∀ p, s.pending = some p →
    (callChunks s.log).length = p.chunkNo + 1 ∧ (okChunks s.log).length = p.chunkNo
  quiet : s.pending = none →
    (callChunks s.log).length = (okChunks s.log).length
  counter : s.pending = none → s.takeActive = true →
    s.chunkNo = (okChunks s.log).length
  flushIff : s.flushing = s.pending.isSome
  inactive : s.takeActive = false → s.buffer = []

theorem chunkInv_init : ChunkInv init := by
  constructor <;> simp [init, callChunks, okChunks]

theorem chunkInv_flushPrefix (s : State) (h : ChunkInv s) :
    ChunkInv (flushPrefix s).1 := by
  unfold flushPrefix
  split
  · exact ⟨h.calls, h.pendingSpec, h.quiet, h.counter, h.flushIff, h.inactive⟩
  · split
    · exact h
    · split
      · exact h
      · rename_i hfl hact hbuf
        simp only [Bool.not_eq_true] at hfl
        simp only [not_not] at hact
        have hnp : s.pending = none := by
          have := h.flushIff
          rw [hfl] at this
          exact (Option.not_isSome_iff_eq_none.mp (by rw [this.symm]; simp)).symm ▸ rfl
        have hLen : (callChunks s.log).length = (okChunks s.log).length :=
          h.quiet hnp
        have hcn : s.chunkNo = (okChunks s.log).length := h.counter hnp hact
        constructor
        · show callChunks (s.log ++ [PortEvent.callAppend s.chunkNo s.buffer.length]) = _
          rw [callChunks_append, callChunks_callAppend, hcn, ← hLen]
          rw [List.length_append, List.length_singleton]
          conv_lhs => rw [h.calls]
          simp [List.length_range, ← List.range_succ]
        · intro p hp
          have hpe : p = ⟨s.chunkNo, s.buffer⟩ := by
            simpa using hp.symm
          subst hpe
          constructor
          · show (callChunks (s.log ++ [PortEvent.callAppend s.chunkNo s.buffer.length])).length = _
            rw [callChunks_append, callChunks_callAppend, List.length_append,
              List.length_singleton, hLen, hcn]
          · show (okChunks (s.log ++ [PortEvent.callAppend s.chunkNo s.buffer.length])).length = _
            rw [okChunks_append, okChunks_callAppend, List.append_nil, hcn]
        · intro hq
          exact absurd hq (by simp)
        · intro hq
          exact absurd hq (by simp)
        · rfl
        · intro _
          rfl

theorem chunkInv_of_eq (s s2 : State) (h : ChunkInv s)
    (hlog : s2.log = s.log) (hpend : s2.pending = s.pending)
    (hchunk : s2.chunkNo = s.chunkNo) (hfl : s2.flushing = s.flushing)
    (hta : s2.takeActive = s.takeActive)
    (hbuf : s2.takeActive = false → s2.buffer = []) : ChunkInv s2 := by
  constructor
  · rw [hlog]
    exact h.calls
  · intro p hp
    rw [hlog]
    exact h.pendingSpec p (by rw [← hpend]; exact hp)
  · intro hq
    rw [hlog]
    exact h.quiet (by rw [← hpend]; exact hq)
  · intro hq ha
    rw [hchunk, hlog]
    exact h.counter (by rw [← hpend]; exact hq) (by rw [← hta]; exact ha)
  · rw [hfl, hpend]
    exact h.flushIff
  · exact hbuf

theorem chunkInv_pushFrame (chunkFrames : ℕ) (s : State) (f : ℤ)
    (h : ChunkInv s) : ChunkInv (pushFrame chunkFrames s f) := by
  unfold pushFrame
  split
  · exact h
  split
  · exact h
  · rename_i hst hact
    simp only [not_not] at hact
    have h1 : ChunkInv
        { s with
          buffer := s.buffer ++ [f]
          firstTs := some (s.firstTs.getD f)
          lastTs := some f
          accepted := s.accepted + 1 } := by
      refine chunkInv_of_eq s _ h rfl rfl rfl rfl rfl ?_
      intro hfa
      rw [hact] at hfa
      simp at hfa
    dsimp only
    split
    · exact chunkInv_flushPrefix _ h1
    · exact h1

theorem chunkInv_callStop (s : State) (h : ChunkInv s) :
    ChunkInv (callStop s) := by
  unfold callStop
  split
  · exact h
  split
  · exact h
  · rename_i hst hact
    simp only [not_not] at hact
    have h1 : ChunkInv { s with status := Status.stopping } := by
      refine chunkInv_of_eq s _ h rfl rfl rfl rfl rfl ?_
      intro hfa
      rw [hact] at hfa
      simp at hfa
    have h2 := chunkInv_flushPrefix _ h1
    dsimp only
    split
    · rename_i s2 heq
      have hs2 : (flushPrefix { s with status := Status.stopping }).1 = s2 := by
        rw [heq]
      rw [hs2] at h2
      exact chunkInv_of_eq s2 _ h2 rfl rfl rfl rfl rfl (fun hfa => h2.inactive hfa)
    · rename_i s2 heq
      have hs2 : (flushPrefix { s with status := Status.stopping }).1 = s2 := by
        rw [heq]
      rw [hs2] at h2
      exact chunkInv_of_eq s2 _ h2 rfl rfl rfl rfl rfl (fun hfa => h2.inactive hfa)

theorem chunkInv_resumeAppendOk (s : State) (h : ChunkInv s) :
    ChunkInv (resumeAppendOk s) := by
  unfold resumeAppendOk
  split
  · exact h
  · rename_i p hp
    obtain ⟨hc1, hc2⟩ := h.pendingSpec p hp
    have hfl : s.flushing = true := by rw [h.flushIff, hp]; rfl
    dsimp only
    split
    · rename_i hbe
      have hbuf : s.buffer = [] := by simpa using hbe
      split <;>
      · constructor
        · simpa [callChunks_append] using h.calls
        · intro p2 hp2
          exact absurd hp2 (by simp)
        · intro _
          simp [callChunks_append, okChunks_append, hc1, hc2]
        · intro _ _
          simp [okChunks_append, hc2]
        · rfl
        · intro _
          exact hbuf
    · rename_i hbn
      constructor
      · show callChunks (s.log ++ [PortEvent.okAppend p.chunkNo p.frames.length]
            ++ [PortEvent.callAppend (p.chunkNo + 1) s.buffer.length]) = _
        rw [callChunks_append, callChunks_append]
        simp only [callChunks_okAppend, callChunks_callAppend, List.append_nil]
        rw [List.length_append, List.length_singleton]
        have hL : (callChunks s.log).length = p.chunkNo + 1 := hc1
        conv_lhs => rw [h.calls, hL]
        rw [hL, ← List.range_succ]
      · intro p2 hp2
        have hpe : p2 = ⟨p.chunkNo + 1, s.buffer⟩ := by
          simpa using hp2.symm
        subst hpe
        constructor
        · show (callChunks (s.log ++ [PortEvent.okAppend p.chunkNo p.frames.length]
              ++ [PortEvent.callAppend (p.chunkNo + 1) s.buffer.length])).length = _
          rw [callChunks_append, callChunks_append]
          simp only [callChunks_okAppend, callChunks_callAppend, List.append_nil]
          rw [List.length_append, List.length_singleton, hc1]
        · show (okChunks (s.log ++ [PortEvent.okAppend p.chunkNo p.frames.length]
              ++ [PortEvent.callAppend (p.chunkNo + 1) s.buffer.length])).length = _
          rw [okChunks_append, okChunks_append]
          simp only [okChunks_okAppend, okChunks_callAppend, List.append_nil]
          rw [List.length_append, List.length_singleton, hc2]
      · intro hq
        exact absurd hq (by simp)
      · intro hq _
        exact absurd hq (by simp)
      · show s.flushing = true
        exact hfl
      · intro _
        rfl

theorem chunkInv_resumeAppendFail (s : State) (h : ChunkInv s)
    (hnf : NoFail (resumeAppendFail s).log) : ChunkInv (resumeAppendFail s) := by
  cases hp : s.pending with
  | none =>
    have hid : resumeAppendFail s = s := by
      unfold resumeAppendFail
      rw [hp]
    rw [hid]
    exact h
  | some p =>
    exfalso
    have hlog : (resumeAppendFail s).log =
        s.log ++ [PortEvent.failAppend p.chunkNo p.frames.length] := by
      unfold resumeAppendFail
      rw [hp]
      dsimp only
      split <;> rfl
    exact hnf p.chunkNo p.frames.length (by rw [hlog]; simp)

theorem chunkInv_resumeFinalize (s : State) (h : ChunkInv s) :
    ChunkInv (resumeFinalize s) := by
  unfold resumeFinalize
  split
  · constructor
    · simpa [callChunks_append] using h.calls
    · intro p hp
      have := h.pendingSpec p hp
      simpa [callChunks_append, okChunks_append] using this
    · intro hq
      simpa [callChunks_append, okChunks_append] using h.quiet hq
    · intro _ hfa
      simp at hfa
    · exact h.flushIff
    · intro _
      rfl
  · exact h

theorem chunkInv_step (chunkFrames : ℕ) (s : State) (op : Op) (h : ChunkInv s)
    (hnf : NoFail (step chunkFrames s op).log) :
    ChunkInv (step chunkFrames s op) := by
  cases op with
  | push f => exact chunkInv_pushFrame chunkFrames s f h
  | flushReq => exact chunkInv_flushPrefix s h
  | stopReq => exact chunkInv_callStop s h
  | appendOk => exact chunkInv_resumeAppendOk s h
  | appendFail => exact chunkInv_resumeAppendFail s h hnf
  | finalizeDone => exact chunkInv_resumeFinalize s h

theorem flushPrefix_log_extend (s : State) :
    ∃ t, (flushPrefix s).1.log = s.log ++ t := by
  unfold flushPrefix
  split
  · exact ⟨[], by simp⟩
  · split
    · exact ⟨[], by simp⟩
    · split
      · exact ⟨[], by simp⟩
      · exact ⟨_, rfl⟩

theorem step_log_extend (chunkFrames : ℕ) (s : State) (op : Op) :
    ∃ t, (step chunkFrames s op).log = s.log ++ t := by
  cases op with
  | push f =>
    show ∃ t, (pushFrame chunkFrames s f).log = s.log ++ t
    unfold pushFrame
    split
    · exact ⟨[], by simp⟩
    · split
      · exact ⟨[], by simp⟩
      · dsimp only
        split
        · exact flushPrefix_log_extend _
        · exact ⟨[], by simp⟩
  | flushReq => exact flushPrefix_log_extend s
  | stopReq =>
    show ∃ t, (callStop s).log = s.log ++ t
    unfold callStop
    split
    · exact ⟨[], by simp⟩
    · split
      · exact ⟨[], by simp⟩
      · dsimp only
        split
        · rename_i s2 heq
          obtain ⟨t, ht⟩ := flushPrefix_log_extend { s with status := Status.stopping }
          rw [heq] at ht
          exact ⟨t, ht⟩
        · rename_i s2 heq
          obtain ⟨t, ht⟩ := flushPrefix_log_extend { s with status := Status.stopping }
          rw [heq] at ht
          exact ⟨t, ht⟩
  | appendOk =>
    show ∃ t, (resumeAppendOk s).log = s.log ++ t
    unfold resumeAppendOk
    split
    · exact ⟨[], by simp⟩
    · dsimp only
      split
      · split
        · exact ⟨_, rfl⟩
        · exact ⟨_, rfl⟩
      · exact ⟨_, by rw [List.append_assoc]⟩
  | appendFail =>
    show ∃ t, (resumeAppendFail s).log = s.log ++ t
    unfold resumeAppendFail
    split
    · exact ⟨[], by simp⟩
    · dsimp only
      split
      · exact ⟨_, rfl⟩
      · exact ⟨_, rfl⟩
  | finalizeDone =>
    show ∃ t, (resumeFinalize s).log = s.log ++ t
    unfold resumeFinalize
    split
    · exact ⟨_, rfl⟩
    · exact ⟨[], by simp⟩

theorem run_log_extend (chunkFrames : ℕ) (ops : List Op) (s : State) :
    ∃ t, (run chunkFrames s ops).log = s.log ++ t := by
  induction ops generalizing s with
  | nil => exact ⟨[], by simp [run]⟩
  | cons op ops ih =>
    obtain ⟨t1, h1⟩ := step_log_extend chunkFrames s op
    obtain ⟨t2, h2⟩ := ih (step chunkFrames s op)
    exact ⟨t1 ++ t2, by rw [run, h2, h1, List.append_assoc]⟩

theorem noFail_of_extend (a t : List PortEvent) (h : NoFail (a ++ t)) :
    NoFail a :=
  fun n k hm => h n k (List.mem_append_left t hm)

theorem chunkInv_run (chunkFrames : ℕ) (ops : List Op) (s : State)
    (h : ChunkInv s) (hnf : NoFail (run chunkFrames s ops).log) :
    ChunkInv (run chunkFrames s ops) := by
  induction ops generalizing s with
  | nil => exact h
  | cons op ops ih =>
    rw [run] at hnf ⊢
    refine ih (step chunkFrames s op) ?_ hnf
    apply chunkInv_step chunkFrames s op h
    obtain ⟨t, ht⟩ := run_log_extend chunkFrames ops (step chunkFrames s op)
    rw [ht] at hnf
    exact noFail_of_extend _ t hnf

/-- C1: along every execution of one recorder instance — every interleaving
of `pushFrame`, `flush` and `stopRecording`, including flush requests issued
while a flush is in flight — in which every persistence call succeeds, the
sequence of chunk numbers passed to the port's `appendFrames` is exactly
`0, 1, 2, ...`: strictly increasing, with no gaps and no repeats. -/
theorem chunk_numbers_exact_range (chunkFrames : ℕ) (ops : List Op)
    (hnf : NoFail (run chunkFrames init ops).log) :
    callChunks (run chunkFrames init ops).log =
      List.range (callChunks (run chunkFrames init ops).log).length :=
  (chunkInv_run chunkFrames ops init chunkInv_init hnf).calls

/-- Witness for C1: a trace with two chunk flushes (the second triggered by
the buffer-full path), a stop and a finalize. -/
theorem chunk_numbers_exact_range_witness :
    callChunks (run 2 init [Op.push 1, Op.push 2, Op.appendOk, Op.push 3,
        Op.push 4, Op.appendOk, Op.stopReq, Op.finalizeDone]).log =
      List.range (callChunks (run 2 init [Op.push 1, Op.push 2, Op.appendOk,
        Op.push 3, Op.push 4, Op.appendOk, Op.stopReq, Op.finalizeDone]).log).length :=
  chunk_numbers_exact_range 2 _ (by decide)

/-! ### The frame-accounting invariant (claim C4)

Every frame accepted by `pushFrame` is, at each atomic instant, in exactly
one place: persisted in a successful chunk, lost to a failed persistence
call, held by the suspended flush coroutine, still in the buffer, or dropped
by the reset at the end of `stopRecording`. -/

structure FrameInv (s : State) : Prop where
  account : persistedFrames s.log + lostFrames s.log + inflight s
      + s.buffer.length + s.dropped = s.accepted
  flushIff : s.flushing = s.pending.isSome
  droppedZero : s.status ≠ Status.idle → s.dropped = 0

theorem frameInv_init : FrameInv init := by
  constructor <;> simp [init, inflight]

theorem frameInv_flushPrefix (s : State) (h : FrameInv s) :
    FrameInv (flushPrefix s).1 := by
  unfold flushPrefix
  split
  · exact ⟨h.account, h.flushIff, h.droppedZero⟩
  · split
    · exact h
    · split
      · exact h
      · rename_i hfl hact hbuf
        simp only [Bool.not_eq_true] at hfl
        have hnp : s.pending = none := by
          have := h.flushIff
          rw [hfl] at this
          cases hsp : s.pending with
          | none => rfl
          | some p => rw [hsp] at this; simp at this
        have hin : inflight s = 0 := by rw [inflight, hnp]
        constructor
        · show persistedFrames (s.log ++ [PortEvent.callAppend s.chunkNo s.buffer.length])
              + lostFrames (s.log ++ [PortEvent.callAppend s.chunkNo s.buffer.length])
              + s.buffer.length + List.length [] + s.dropped = s.accepted
          rw [persistedFrames_append, lostFrames_append]
          simp only [persistedFrames_callAppend, lostFrames_callAppend,
            Nat.add_zero, List.length_nil]
          have := h.account
          rw [hin] at this
          omega
        · rfl
        · exact h.droppedZero

theorem frameInv_pushFrame (chunkFrames : ℕ) (s : State) (f : ℤ)
    (h : FrameInv s) : FrameInv (pushFrame chunkFrames s f) := by
  unfold pushFrame
  split
  · exact h
  · split
    · exact h
    · have h1 : FrameInv
          { s with
            buffer := s.buffer ++ [f]
            firstTs := some (s.firstTs.getD f)
            lastTs := some f
            accepted := s.accepted + 1 } := by
        constructor
        · show persistedFrames s.log + lostFrames s.log + inflight s
              + (s.buffer ++ [f]).length + s.dropped = s.accepted + 1
          rw [List.length_append, List.length_singleton]
          have := h.account
          omega
        · exact h.flushIff
        · exact h.droppedZero
      dsimp only
      split
      · exact frameInv_flushPrefix _ h1
      · exact h1

theorem frameInv_callStop (s : State) (h : FrameInv s) :
    FrameInv (callStop s) := by
  unfold callStop
  split
  · exact h
  · split
    · exact h
    · rename_i hst _
      simp only [ne_eq, not_not] at hst
      have h1 : FrameInv { s with status := Status.stopping } :=
        ⟨h.account, h.flushIff, fun _ => h.droppedZero (by rw [hst]; simp)⟩
      have h2 := frameInv_flushPrefix _ h1
      dsimp only
      split
      · rename_i s2 heq
        have hs2 : (flushPrefix { s with status := Status.stopping }).1 = s2 := by
          rw [heq]
        rw [hs2] at h2
        exact ⟨h2.account, h2.flushIff, fun hni => h2.droppedZero hni⟩
      · rename_i s2 heq
        have hs2 : (flushPrefix { s with status := Status.stopping }).1 = s2 := by
          rw [heq]
        rw [hs2] at h2
        exact ⟨h2.account, h2.flushIff, fun hni => h2.droppedZero hni⟩

theorem frameInv_resumeAppendOk (s : State) (h : FrameInv s) :
    FrameInv (resumeAppendOk s) := by
  unfold resumeAppendOk
  split
  · exact h
  · rename_i p hp
    have hin : inflight s = p.frames.length := by rw [inflight, hp]
    have hacc := h.account
    rw [hin] at hacc
    have hfl : s.flushing = true := by rw [h.flushIff, hp]; rfl
    dsimp only
    split
    · split <;>
      · constructor
        · show persistedFrames (s.log ++ [PortEvent.okAppend p.chunkNo p.frames.length])
              + lostFrames (s.log ++ [PortEvent.okAppend p.chunkNo p.frames.length])
              + 0 + s.buffer.length + s.dropped = s.accepted
          rw [persistedFrames_append, lostFrames_append]
          simp only [persistedFrames_okAppend, lostFrames_okAppend, Nat.add_zero]
          omega
        · rfl
        · exact h.droppedZero
    · constructor
      · show persistedFrames (s.log ++ [PortEvent.okAppend p.chunkNo p.frames.length]
            ++ [PortEvent.callAppend (p.chunkNo + 1) s.buffer.length])
            + lostFrames (s.log ++ [PortEvent.okAppend p.chunkNo p.frames.length]
            ++ [PortEvent.callAppend (p.chunkNo + 1) s.buffer.length])
            + s.buffer.length + List.length [] + s.dropped = s.accepted
        rw [persistedFrames_append, persistedFrames_append,
          lostFrames_append, lostFrames_append]
        simp only [persistedFrames_okAppend, persistedFrames_callAppend,
          lostFrames_okAppend, lostFrames_callAppend, Nat.add_zero, List.length_nil]
        omega
      · exact hfl
      · exact h.droppedZero

theorem frameInv_resumeAppendFail (s : State) (h : FrameInv s) :
    FrameInv (resumeAppendFail s) := by
  unfold resumeAppendFail
  split
  · exact h
  · rename_i p hp
    have hin : inflight s = p.frames.length := by rw [inflight, hp]
    have hacc := h.account
    rw [hin] at hacc
    dsimp only
    split <;>
    · constructor
      · show persistedFrames (s.log ++ [PortEvent.failAppend p.chunkNo p.frames.length])
            + lostFrames (s.log ++ [PortEvent.failAppend p.chunkNo p.frames.length])
            + 0 + s.buffer.length + s.dropped = s.accepted
        rw [persistedFrames_append, lostFrames_append]
        simp only [persistedFrames_failAppend, lostFrames_failAppend, Nat.add_zero]
        omega
      · rfl
      · exact h.droppedZero

theorem frameInv_resumeFinalize (s : State) (h : FrameInv s) :
    FrameInv (resumeFinalize s) := by
  unfold resumeFinalize
  split
  · constructor
    · show persistedFrames (s.log ++ [PortEvent.finalized _ _])
          + lostFrames (s.log ++ [PortEvent.finalized _ _])
          + inflight s + List.length [] + (s.dropped + s.buffer.length) = s.accepted
      rw [persistedFrames_append, lostFrames_append]
      simp only [persistedFrames_finalized, lostFrames_finalized,
        Nat.add_zero, List.length_nil]
      have := h.account
      omega
    · exact h.flushIff
    · intro hni
      exact absurd rfl hni
  · exact h

theorem frameInv_step (chunkFrames : ℕ) (s : State) (op : Op)
    (h : FrameInv s) : FrameInv (step chunkFrames s op) := by
  cases op with
  | push f => exact frameInv_pushFrame chunkFrames s f h
  | flushReq => exact frameInv_flushPrefix s h
  | stopReq => exact frameInv_callStop s h
  | appendOk => exact frameInv_resumeAppendOk s h
  | appendFail => exact frameInv_resumeAppendFail s h
  | finalizeDone => exact frameInv_resumeFinalize s h

theorem frameInv_run (chunkFrames : ℕ) (ops : List Op) (s : State)
    (h : FrameInv s) : FrameInv (run chunkFrames s ops) := by
  induction ops generalizing s with
  | nil => exact h
  | cons op ops ih => exact ih _ (frameInv_step chunkFrames s op h)

theorem lostFrames_eq_zero (log : List PortEvent) (h : NoFail log) :
    lostFrames log = 0 := by
  induction log with
  | nil => rfl
  | cons e rest ih =>
    have hrest : NoFail rest := fun n k hm => h n k (List.mem_cons_of_mem e hm)
    have he : (match e with
        | PortEvent.failAppend _ k => k
        | _ => 0) = 0 := by
      cases e
      case failAppend n k => exact absurd (List.mem_cons_self _ _) (h n k)
      all_goals rfl
    simp only [lostFrames, List.map_cons, List.sum_cons] at *
    rw [he, ih hrest]

/-- C4: at every observable instant between completed recorder operations
(a reachable state with no flush in flight) during one recording session
(status not yet reset to idle) on a trace whose persistence calls all
succeed, the sum of `frameCount` over the chunks passed to `appendFrames`
plus the number of frames currently buffered equals the number of frames
accepted by `pushFrame` since `startRecording`. -/
theorem frames_conserved (chunkFrames : ℕ) (ops : List Op)
    (hnf : NoFail (run chunkFrames init ops).log)
    (hq : (run chunkFrames init ops).pending = none)
    (hst : (run chunkFrames init ops).status ≠ Status.idle) :
    persistedFrames (run chunkFrames init ops).log
      + (run chunkFrames init ops).buffer.length
      = (run chunkFrames init ops).accepted := by
  have h := frameInv_run chunkFrames ops init frameInv_init
  have hacc := h.account
  have hlost := lostFrames_eq_zero _ hnf
  have hin : inflight (run chunkFrames init ops) = 0 := by rw [inflight, hq]
  have hdrop := h.droppedZero hst
  omega

/-- Witness for C4: after one persisted chunk of two frames and one more
buffered frame, `2 + 1 = 3`. -/
theorem frames_conserved_witness :
    persistedFrames (run 2 init [Op.push 1, Op.push 2, Op.appendOk, Op.push 3]).log
      + (run 2 init [Op.push 1, Op.push 2, Op.appendOk, Op.push 3]).buffer.length
      = (run 2 init [Op.push 1, Op.push 2, Op.appendOk, Op.push 3]).accepted :=
  frames_conserved 2 [Op.push 1, Op.push 2, Op.appendOk, Op.push 3]
    (by decide) (by decide) (by decide)

/-- C2: if `flush` is called while another flush is in flight, the new call
only records the request in the run-again flag and returns immediately — the
in-flight drain is neither dropped, nor replaced, nor run in parallel — and
the in-flight flush, after its current `appendFrames` completes, observes
the flag, clears it, and performs a further drain: when the buffer
accumulated frames during the write it splices exactly those frames into the
next chunk before finishing, and when the buffer is empty it finishes. -/
theorem flush_overlap_run_again (s : State) (p : PendingAppend)
    (hfl : s.flushing = true) (hp : s.pending = some p) :
    callFlush s = { s with flushAgain := true } ∧
    (resumeAppendOk { s with flushAgain := true }).flushAgain = false ∧
    (s.buffer = [] →
      (resumeAppendOk { s with flushAgain := true }).pending = none ∧
      (resumeAppendOk { s with flushAgain := true }).flushing = false) ∧
    (s.buffer ≠ [] →
      (resumeAppendOk { s with flushAgain := true }).pending
          = some ⟨p.chunkNo + 1, s.buffer⟩ ∧
      (resumeAppendOk { s with flushAgain := true }).buffer = [] ∧
      (resumeAppendOk { s with flushAgain := true }).log
          = s.log ++ [PortEvent.okAppend p.chunkNo p.frames.length,
              PortEvent.callAppend (p.chunkNo + 1) s.buffer.length]) := by
  refine ⟨?_, ?_, ?_, ?_⟩
  · unfold callFlush flushPrefix
    rw [if_pos hfl]
  · unfold resumeAppendOk
    dsimp only
    rw [hp]
    dsimp only
    split
    · split <;> rfl
    · rfl
  · intro hbe
    unfold resumeAppendOk
    dsimp only
    rw [hp]
    dsimp only
    rw [if_pos (by simp [hbe])]
    split <;> exact ⟨rfl, rfl⟩
  · intro hbn
    unfold resumeAppendOk
    dsimp only
    rw [hp]
    dsimp only
    rw [if_neg (by simp [hbn])]
    exact ⟨rfl, rfl, by simp⟩

/-- A concrete recorder state with a flush in flight on chunk 0 (two spliced
frames) and one frame accumulated in the buffer. -/
def overlapState : State :=
  { init with flushing := true, pending := some ⟨0, [5, 6]⟩, buffer := [7] }

/-- Witness for C2 at `overlapState`. -/
theorem flush_overlap_run_again_witness :
    callFlush overlapState = { overlapState with flushAgain := true } ∧
    (resumeAppendOk { overlapState with flushAgain := true }).flushAgain = false ∧
    (overlapState.buffer = [] →
      (resumeAppendOk { overlapState with flushAgain := true }).pending = none ∧
      (resumeAppendOk { overlapState with flushAgain := true }).flushing = false) ∧
    (overlapState.buffer ≠ [] →
      (resumeAppendOk { overlapState with flushAgain := true }).pending
          = some ⟨0 + 1, overlapState.buffer⟩ ∧
      (resumeAppendOk { overlapState with flushAgain := true }).buffer = [] ∧
      (resumeAppendOk { overlapState with flushAgain := true }).log
          = overlapState.log ++ [PortEvent.okAppend 0 2,
              PortEvent.callAppend (0 + 1) overlapState.buffer.length]) :=
  flush_overlap_run_again overlapState ⟨0, [5, 6]⟩ (by decide) (by decide)

/-- Counterexample to C3 as stated: push one frame, request a flush, and let
`appendFrames` fail.  The flush spliced the frame out of the buffer before
the `await`; after the failure the buffer is empty — the frame of the failed
chunk is NOT available in the recorder's in-memory buffer (the claim would
require the buffer to hold it again), even though the failed call for chunk
0 with 1 frame is on record. -/
theorem flush_failure_loses_frames :
    (run 30 init [Op.push 5, Op.flushReq, Op.appendFail]).buffer = [] ∧
    (run 30 init [Op.push 5, Op.flushReq, Op.appendFail]).log
      = [PortEvent.callAppend 0 1, PortEvent.failAppend 0 1] := by
  decide

/-- C3 (amended): if `appendFrames` fails during a flush, the error
propagates to the awaiting caller — the failure is recorded at the port, the
drain loop terminates with both flags cleared, and a `stopRecording` that
was awaiting this flush rethrows without finalizing, its status stuck at
`stopping` — and the chunk counter is not bumped (a retry reuses the same
chunk number); but the frames spliced out for the failing chunk are a
discarded local and are NOT restored: the buffer keeps exactly the frames
pushed after the splice. -/
theorem flush_failure_state (s : State) (p : PendingAppend)
    (hp : s.pending = some p) :
    (resumeAppendFail s).log
        = s.log ++ [PortEvent.failAppend p.chunkNo p.frames.length] ∧
    (resumeAppendFail s).buffer = s.buffer ∧
    (resumeAppendFail s).pending = none ∧
    (resumeAppendFail s).flushing = false ∧
    (resumeAppendFail s).flushAgain = false ∧
    (resumeAppendFail s).chunkNo = s.chunkNo ∧
    (s.stopPhase = StopPhase.waitFlush →
      (resumeAppendFail s).stopPhase = StopPhase.idle ∧
      (resumeAppendFail s).status = s.status) := by
  unfold resumeAppendFail
  rw [hp]
  dsimp only
  split
  · exact ⟨rfl, rfl, rfl, rfl, rfl, rfl, fun _ => ⟨rfl, rfl⟩⟩
  · rename_i hnw
    exact ⟨rfl, rfl, rfl, rfl, rfl, rfl, fun hw => absurd hw (by simpa using hnw)⟩

/-- A concrete state: flush in flight on chunk 0 holding one spliced frame,
stopRecording awaiting the drain loop. -/
def failingState : State :=
  { init with
    status := Status.stopping
    flushing := true
    pending := some ⟨0, [5]⟩
    stopPhase := StopPhase.waitFlush }

/-- Witness for the amended C3 at `failingState`. -/
theorem flush_failure_state_witness :
    (resumeAppendFail failingState).log
        = failingState.log ++ [PortEvent.failAppend 0 1] ∧
    (resumeAppendFail failingState).buffer = failingState.buffer ∧
    (resumeAppendFail failingState).pending = none ∧
    (resumeAppendFail failingState).flushing = false ∧
    (resumeAppendFail failingState).flushAgain = false ∧
    (resumeAppendFail failingState).chunkNo = failingState.chunkNo ∧
    (failingState.stopPhase = StopPhase.waitFlush →
      (resumeAppendFail failingState).stopPhase = StopPhase.idle ∧
      (resumeAppendFail failingState).status = failingState.status) :=
  flush_failure_state failingState ⟨0, [5]⟩ (by decide)

end Recorder

/-! ## One-Euro filter and pose smoother
(domain/mocap/pipeline/filter/OneEuroFilter.ts, PoseSmoother.ts)

JavaScript numbers are modelled as reals: the filter coefficients involve
`Math.PI`. -/

namespace Filter

noncomputable section

/-- `OneEuroParams` (OneEuroFilter.ts, lines 2-7).  One object is shared by
the three axis filters of each smoother landmark, and `filter` mutates its
`freq` field. -/
structure OneEuroParams where
  freq : ℝ
  minCutoff : ℝ
  beta : ℝ
  dCutoff : ℝ

/-- `alpha(cutoff, freq)` (lines 9-13): the exponential-smoothing
coefficient. -/
def alpha (cutoff freq : ℝ) : ℝ :=
  let te := 1 / freq
  let tau := 1 / (2 * Real.pi * cutoff)
  1 / (1 + tau / te)

/-- `LowPass` state (lines 15-33): `y` is the last raw input (`_y`), `s` the
last smoothed output (`_s`).  The source sets both fields together, so they
are `none` only simultaneously; the mixed third branch below mirrors the
bootstrap branch and is unreachable from `initOneEuro`. -/
structure LowPass where
  y : Option ℝ
  s : Option ℝ

/-- `LowPass.filter(x, a)` (lines 19-28). -/
def LowPass.filter (lp : LowPass) (x a : ℝ) : ℝ × LowPass :=
  match lp.y, lp.s with
  | none, _ => (x, ⟨some x, some x⟩)
  | some _, some s0 =>
    let s1 := a * x + (1 - a) * s0
    (s1, ⟨some x, some s1⟩)
  | some _, none => (x, ⟨some x, some x⟩)

/-- `LowPass.last()` (lines 30-32): returns the smoothed `_s`. -/
def LowPass.last (lp : LowPass) : Option ℝ :=
  lp.s

/-- Mutable state of `OneEuroFilter1D` apart from the shared params object:
the value low-pass `x`, the derivative low-pass `dx`, and `lastTs`. -/
structure OneEuroState where
  x : LowPass
  dx : LowPass
  lastTs : Option ℝ

/-- A freshly constructed `OneEuroFilter1D`. -/
def initOneEuro : OneEuroState :=
  ⟨⟨none, none⟩, ⟨none, none⟩, none⟩

/-- The frequency update at the head of `filter` (lines 47-51): when a
previous timestamp exists and `dt = (tsMs - lastTs)/1000 > 0.0001`, the
shared params' `freq` becomes `1/dt`. -/
def updFreq (p : OneEuroParams) (st : OneEuroState) (tsMs : ℝ) : OneEuroParams :=
  match st.lastTs with
  | none => p
  | some t0 =>
    let dt := (tsMs - t0) / 1000
    if dt > 0.0001 then { p with freq := 1 / dt } else p

/-- The derivative estimate fed to the derivative low-pass (lines 53-54):
`prev` is `this.x.last()` — the last smoothed output of the value low-pass —
and the estimate is `(value - prev) * freq`, or 0 when there is no previous
sample. -/
def dValueOf (p : OneEuroParams) (st : OneEuroState) (value tsMs : ℝ) : ℝ :=
  match st.x.last with
  | none => 0
  | some prev => (value - prev) * (updFreq p st tsMs).freq

/-- `OneEuroFilter1D.filter(value, tsMs)` (lines 46-62).  Returns the
filtered value, the updated shared params, and the updated filter state. -/
def oneEuroFilter (p : OneEuroParams) (st : OneEuroState) (value tsMs : ℝ) :
    ℝ × OneEuroParams × OneEuroState :=
  let p1 := updFreq p st tsMs
  let dValue := dValueOf p st value tsMs
  let aD := alpha p1.dCutoff p1.freq
  let ed := st.dx.filter dValue aD
  let cutoff := p1.minCutoff + p1.beta * |ed.1|
  let a := alpha cutoff p1.freq
  let out := st.x.filter value a
  (out.1, p1, ⟨out.2, ed.2, some tsMs⟩)

theorem lowPass_s_eq_out (lp : LowPass) (x a : ℝ) :
    ((lp.filter x a).2).s = some (lp.filter x a).1 := by
  unfold LowPass.filter
  rcases lp with ⟨y, s⟩
  cases y <;> cases s <;> rfl

theorem lowPass_y_eq_raw (lp : LowPass) (x a : ℝ) :
    ((lp.filter x a).2).y = some x := by
  unfold LowPass.filter
  rcases lp with ⟨y, s⟩
  cases y <;> cases s <;> rfl

theorem oneEuroFilter_x_y (p : OneEuroParams) (st : OneEuroState) (v t : ℝ) :
    ((oneEuroFilter p st v t).2.2).x.y = some v := by
  unfold oneEuroFilter
  dsimp only
  exact lowPass_y_eq_raw st.x v _

theorem oneEuroFilter_lastTs (p : OneEuroParams) (st : OneEuroState) (v t : ℝ) :
    ((oneEuroFilter p st v t).2.2).lastTs = some t := rfl

theorem oneEuroFilter_last_eq_out (p : OneEuroParams) (st : OneEuroState) (v t : ℝ) :
    ((oneEuroFilter p st v t).2.2).x.last = some (oneEuroFilter p st v t).1 := by
  unfold oneEuroFilter LowPass.last
  dsimp only
  exact lowPass_s_eq_out st.x v _

/-- C7 (amended): the derivative estimate fed to the derivative low-pass is
0 on the very first call; on every later call it equals
`(value − previousOutput) × frequency`, where `previousOutput` is the
FILTERED value returned by the immediately preceding call — not the raw
input of that call: `this.x.last()` returns the smoothed `_s`, not the
stored raw `_y`. -/
theorem oneEuro_derivative_from_previous_output (p q : Filter.OneEuroParams)
    (st : Filter.OneEuroState) (v1 t1 v2 t2 : ℝ) :
    Filter.dValueOf p Filter.initOneEuro v1 t1 = 0 ∧
    Filter.dValueOf (Filter.oneEuroFilter q st v1 t1).2.1
        (Filter.oneEuroFilter q st v1 t1).2.2 v2 t2
      = (v2 - (Filter.oneEuroFilter q st v1 t1).1)
        * (Filter.updFreq (Filter.oneEuroFilter q st v1 t1).2.1
            (Filter.oneEuroFilter q st v1 t1).2.2 t2).freq := by
  constructor
  · rfl
  · unfold Filter.dValueOf
    rw [oneEuroFilter_last_eq_out q st v1 t1]

/-- Parameters used by the counterexample: `freq = 1`, `minCutoff = 1`,
`beta = 0`, `dCutoff = 1` — a legal `OneEuroFilter1D` construction. -/
def cxParams : Filter.OneEuroParams :=
  ⟨1, 1, 0, 1⟩

/-- First call of the counterexample run: `filter(0, 0)`. -/
def cxRun1 : ℝ × Filter.OneEuroParams × Filter.OneEuroState :=
  Filter.oneEuroFilter cxParams Filter.initOneEuro 0 0

/-- Second call of the counterexample run: `filter(1, 1000)`. -/
def cxRun2 : ℝ × Filter.OneEuroParams × Filter.OneEuroState :=
  Filter.oneEuroFilter cxRun1.2.1 cxRun1.2.2 1 1000

/-- Counterexample to C7 as stated: after the calls `filter(0, 0)` and
`filter(1, 1000)`, the raw value passed to the preceding call is 1
(`_y = some 1`) and the working frequency at the third call `filter(1, 2000)`
is 1, so the claimed derivative estimate is `(1 - 1) × 1 = 0`; but the code
feeds `(value - x.last()) × freq` with `x.last()` the previous SMOOTHED
output `2π/(2π+1) ≠ 1`, so the actual estimate `1/(2π+1)` is nonzero. -/
theorem oneEuro_derivative_counterexample :
    cxRun2.2.2.x.y = some 1 ∧
    (Filter.updFreq cxRun2.2.1 cxRun2.2.2 2000).freq = 1 ∧
    Filter.dValueOf cxRun2.2.1 cxRun2.2.2 1 2000
      ≠ ((1 : ℝ) - 1) * (Filter.updFreq cxRun2.2.1 cxRun2.2.2 2000).freq := by
  have hrun2 : cxRun2
      = Filter.oneEuroFilter cxParams ⟨⟨some 0, some 0⟩, ⟨some 0, some 0⟩, some 0⟩ 1 1000 := rfl
  have hfreq1 : Filter.updFreq cxParams ⟨⟨some 0, some 0⟩, ⟨some 0, some 0⟩, some 0⟩ 1000
      = (⟨1 / ((1000 - 0) / 1000), 1, 0, 1⟩ : Filter.OneEuroParams) := by
    unfold Filter.updFreq cxParams
    dsimp only
    rw [if_pos (by norm_num)]
  have hy : cxRun2.2.2.x.y = some 1 := by
    rw [hrun2]
    exact oneEuroFilter_x_y _ _ _ _
  have hlast : cxRun2.2.2.lastTs = some 1000 := by
    rw [hrun2]
    exact oneEuroFilter_lastTs _ _ _ _
  have hfreq3 : (Filter.updFreq cxRun2.2.1 cxRun2.2.2 2000).freq = 1 := by
    unfold Filter.updFreq
    rw [hlast]
    dsimp only
    rw [if_pos (by norm_num)]
    dsimp only
    norm_num
  have hA : cxRun2.1 = Filter.alpha 1 (1 / ((1000 - 0) / 1000)) := by
    rw [hrun2]
    unfold Filter.oneEuroFilter
    dsimp only
    rw [hfreq1]
    unfold Filter.LowPass.filter
    dsimp only
    simp only [zero_mul, add_zero, mul_one, mul_zero]
  have hAlt : cxRun2.1 < 1 := by
    rw [hA]
    have hf : (1 : ℝ) / ((1000 - 0) / 1000) = 1 := by norm_num
    rw [hf]
    unfold Filter.alpha
    dsimp only
    have hpi : (0 : ℝ) < Real.pi := Real.pi_pos
    have htau : (0 : ℝ) < 1 / (2 * Real.pi * 1) / (1 / 1) := by positivity
    rw [div_lt_one (by linarith)]
    linarith
  have hs : cxRun2.2.2.x.last = some cxRun2.1 := by
    rw [hrun2]
    exact oneEuroFilter_last_eq_out _ _ _ _
  refine ⟨hy, hfreq3, ?_⟩
  unfold Filter.dValueOf
  rw [hs, hfreq3]
  have h1A : (1 : ℝ) - cxRun2.1 ≠ 0 := by
    intro h0
    rw [sub_eq_zero] at h0
    rw [← h0] at hAlt
    exact lt_irrefl 1 hAlt
  simpa using h1A

/-! ### Pose smoother (PoseSmoother.ts) -/

/-- Smoother parameters (PoseSmoother.ts, lines 4-9). -/
structure SmootherParams where
  minCutoff : ℝ
  beta : ℝ
  dCutoff : ℝ
  confidenceGate : ℝ

/-- The constructor defaults (lines 18-23). -/
def defaultSmootherParams : SmootherParams :=
  ⟨1, 0.007, 1, 0.5⟩

/-- One landmark's filter bank: the constructor creates one `base` params
object per landmark slot, shared by that slot's three axis filters
(lines 26-31), so the bank carries a single `OneEuroParams`. -/
structure LandmarkFilter where
  p : OneEuroParams
  fx : OneEuroState
  fy : OneEuroState
  fz : OneEuroState

/-- The `PoseSmoother` object: its params and the per-landmark banks. -/
structure PoseSmoother where
  params : SmootherParams
  filters : List LandmarkFilter

/-- `new PoseSmoother(landmarkCount, params)` (lines 17-32). -/
def mkPoseSmoother (landmarkCount : ℕ) (ps : SmootherParams) : PoseSmoother :=
  { params := ps
    filters := List.replicate landmarkCount
      ⟨⟨30, ps.minCutoff, ps.beta, ps.dCutoff⟩, initOneEuro, initOneEuro, initOneEuro⟩ }

/-- One ungated landmark update (lines 44-47): the three axis filters run in
x, y, z order, threading the shared mutable `base` params object. -/
def smoothLandmark (lf : LandmarkFilter) (x y z ts : ℝ) :
    (ℝ × ℝ × ℝ) × LandmarkFilter :=
  let rx := oneEuroFilter lf.p lf.fx x ts
  let ry := oneEuroFilter rx.2.1 lf.fy y ts
  let rz := oneEuroFilter ry.2.1 lf.fz z ts
  ((rx.1, ry.1, rz.1), ⟨rz.2.1, rx.2.2, ry.2.2, rz.2.2⟩)

/-- The body of the `for` loop of `PoseSmoother.filter` for index `i`
(lines 38-48): read the quadruple at offset `i*4` from the raw buffer; when
the confidence is below the gate, `continue` — the output keeps the copied
raw values and no filter state is touched; otherwise filter the three axes
and write them and the confidence to the output.  An index with no filter
bank is a runtime TypeError in the source; the model leaves the slot
untouched (no claim exercises that path). -/
def smootherStep (sm : PoseSmoother) (raw : List ℝ) (ts : ℝ)
    (acc : List ℝ × PoseSmoother) (i : ℕ) : List ℝ × PoseSmoother :=
  let o := i * 4
  let x := raw.getD o 0
  let y := raw.getD (o + 1) 0
  let z := raw.getD (o + 2) 0
  let c := raw.getD (o + 3) 0
  if c < sm.params.confidenceGate then acc
  else
    match acc.2.filters[i]? with
    | none => acc
    | some lf =>
      let r := smoothLandmark lf x y z ts
      ((((acc.1.set o r.1.1).set (o + 1) r.1.2.1).set (o + 2) r.1.2.2).set (o + 3) c,
        { acc.2 with filters := acc.2.filters.set i r.2 })

/-- `PoseSmoother.filter(raw, ts)` (lines 34-51): start from a copy of the
raw buffer (`new Float32Array(raw)`) and run the loop body for each index
below `floor(raw.length / 4)`. -/
def smootherFilter (sm : PoseSmoother) (raw : List ℝ) (ts : ℝ) :
    List ℝ × PoseSmoother :=
  (List.range (raw.length / 4)).foldl (smootherStep sm raw ts) (raw, sm)

theorem smootherStep_preserves_gated (sm : PoseSmoother) (raw : List ℝ)
    (ts : ℝ) (i j : ℕ) (acc : List ℝ × PoseSmoother)
    (hc : raw.getD (i * 4 + 3) 0 < sm.params.confidenceGate) :
    (∀ k, k < 4 → (smootherStep sm raw ts acc j).1[i * 4 + k]? = acc.1[i * 4 + k]?) ∧
    (smootherStep sm raw ts acc j).2.filters[i]? = acc.2.filters[i]? ∧
    (smootherStep sm raw ts acc j).2.params = acc.2.params := by
  by_cases hij : j = i
  · subst hij
    unfold smootherStep
    dsimp only
    rw [if_pos hc]
    exact ⟨fun k _ => rfl, rfl, rfl⟩
  · unfold smootherStep
    dsimp only
    split
    · exact ⟨fun k _ => rfl, rfl, rfl⟩
    · split
      · exact ⟨fun k _ => rfl, rfl, rfl⟩
      · refine ⟨?_, ?_, rfl⟩
        · intro k hk
          dsimp only
          rw [List.getElem?_set_ne (by omega), List.getElem?_set_ne (by omega),
            List.getElem?_set_ne (by omega), List.getElem?_set_ne (by omega)]
        · dsimp only
          rw [List.getElem?_set_ne (by omega)]

theorem smootherFold_preserves_gated (sm : PoseSmoother) (raw : List ℝ)
    (ts : ℝ) (i : ℕ) (l : List ℕ) (acc : List ℝ × PoseSmoother)
    (hc : raw.getD (i * 4 + 3) 0 < sm.params.confidenceGate) :
    (∀ k, k < 4 →
      (l.foldl (smootherStep sm raw ts) acc).1[i * 4 + k]? = acc.1[i * 4 + k]?) ∧
    (l.foldl (smootherStep sm raw ts) acc).2.filters[i]? = acc.2.filters[i]? ∧
    (l.foldl (smootherStep sm raw ts) acc).2.params = acc.2.params := by
  induction l generalizing acc with
  | nil => exact ⟨fun k _ => rfl, rfl, rfl⟩
  | cons j l ih =>
    obtain ⟨hout1, hfil1, hpar1⟩ := smootherStep_preserves_gated sm raw ts i j acc hc
    obtain ⟨hout2, hfil2, hpar2⟩ := ih (smootherStep sm raw ts acc j)
    refine ⟨?_, ?_, ?_⟩
    · intro k hk
      rw [List.foldl_cons, hout2 k hk, hout1 k hk]
    · rw [List.foldl_cons, hfil2, hfil1]
    · rw [List.foldl_cons, hpar2, hpar1]

/-- C6: for every input frame and every landmark in it whose confidence is
strictly below the configured gate, `PoseSmoother.filter` leaves that
landmark's x, y, z and confidence in the output numerically unchanged (they
are the copied raw values) and does not advance that landmark's filter bank
— its three per-axis One-Euro states and their shared params are exactly the
ones from before the call, so a later above-gate sample is filtered as if
the gated samples had never been seen. -/
theorem smoother_gate_passthrough (sm : PoseSmoother) (raw : List ℝ)
    (ts : ℝ) (i : ℕ) (_hi : i < raw.length / 4)
    (hc : raw.getD (i * 4 + 3) 0 < sm.params.confidenceGate) :
    (∀ k, k < 4 → (smootherFilter sm raw ts).1[i * 4 + k]? = raw[i * 4 + k]?) ∧
    (smootherFilter sm raw ts).2.filters[i]? = sm.filters[i]? ∧
    (smootherFilter sm raw ts).2.params = sm.params := by
  have := smootherFold_preserves_gated sm raw ts i
    (List.range (raw.length / 4)) (raw, sm) hc
  exact this

/-- Witness for C6: a one-landmark smoother with the default parameters and
a frame whose single landmark has confidence 0.1, below the 0.5 gate. -/
theorem smoother_gate_passthrough_witness :
    (∀ k, k < 4 →
      (smootherFilter (mkPoseSmoother 1 defaultSmootherParams)
        [0.3, 0.4, 0.5, 0.1] 0).1[0 * 4 + k]? = [(0.3 : ℝ), 0.4, 0.5, 0.1][0 * 4 + k]?) ∧
    (smootherFilter (mkPoseSmoother 1 defaultSmootherParams)
        [0.3, 0.4, 0.5, 0.1] 0).2.filters[0]?
      = (mkPoseSmoother 1 defaultSmootherParams).filters[0]? ∧
    (smootherFilter (mkPoseSmoother 1 defaultSmootherParams)
        [0.3, 0.4, 0.5, 0.1] 0).2.params
      = (mkPoseSmoother 1 defaultSmootherParams).params :=
  smoother_gate_passthrough (mkPoseSmoother 1 defaultSmootherParams)
    [0.3, 0.4, 0.5, 0.1] 0 0 (by norm_num)
    (by
      show List.getD [(0.3 : ℝ), 0.4, 0.5, 0.1] 3 0
          < (mkPoseSmoother 1 defaultSmootherParams).params.confidenceGate
      norm_num [List.getD, mkPoseSmoother, defaultSmootherParams])

end

end Filter

/-! ## Skeleton math and rig
(domain/mocap/models/Skeleton.ts, MediapipePose33.ts, Landmark.ts) -/

namespace BVH

noncomputable section

/-- `Vec3` (Skeleton.ts). -/
structure Vec3 where
  x : ℝ
  y : ℝ
  z : ℝ

/-- `v3(x, y, z)`. -/
def v3 (x y z : ℝ) : Vec3 := ⟨x, y, z⟩

/-- `add(a, b)`. -/
def add (a b : Vec3) : Vec3 := ⟨a.x + b.x, a.y + b.y, a.z + b.z⟩

/-- `sub(a, b)`. -/
def sub (a b : Vec3) : Vec3 := ⟨a.x - b.x, a.y - b.y, a.z - b.z⟩

/-- `mul(a, s)`. -/
def mul (a : Vec3) (s : ℝ) : Vec3 := ⟨a.x * s, a.y * s, a.z * s⟩

/-- `dot(a, b)`. -/
def dot (a b : Vec3) : ℝ := a.x * b.x + a.y * b.y + a.z * b.z

/-- `cross(a, b)`. -/
def cross (a b : Vec3) : Vec3 :=
  ⟨a.y * b.z - a.z * b.y, a.z * b.x - a.x * b.z, a.x * b.y - a.y * b.x⟩

/-- `len(a)`. -/
def len (a : Vec3) : ℝ := Real.sqrt (dot a a)

/-- `norm(a)` with its guard against near-zero length. -/
def norm (a : Vec3) : Vec3 :=
  let l := len a
  if l < 1e-9 then ⟨0, 0, 0⟩ else ⟨a.x / l, a.y / l, a.z / l⟩

/-- `clamp(v, lo, hi)` : `Math.max(lo, Math.min(hi, v))`. -/
def clamp (v lo hi : ℝ) : ℝ := max lo (min hi v)

/-- Model of `Math.atan2(y, x)` by its mathematical definition (the JS
engine's builtin; signed zeros are not distinguishable in `ℝ`). -/
def atan2 (y x : ℝ) : ℝ :=
  if 0 < x then Real.arctan (y / x)
  else if x < 0 ∧ 0 ≤ y then Real.arctan (y / x) + Real.pi
  else if x < 0 ∧ y < 0 then Real.arctan (y / x) - Real.pi
  else if x = 0 ∧ 0 < y then Real.pi / 2
  else if x = 0 ∧ y < 0 then -(Real.pi / 2)
  else 0

/-- The 16 rig joints (`JointName`, MediapipePose33.ts). -/
inductive JointName
  | Hips
  | Spine
  | Neck
  | Head
  | LeftShoulder
  | LeftElbow
  | LeftWrist
  | RightShoulder
  | RightElbow
  | RightWrist
  | LeftHip
  | LeftKnee
  | LeftAnkle
  | RightHip
  | RightKnee
  | RightAnkle
  deriving Repr, DecidableEq

/-- One `RIG` node: joint, parent, optional MediaPipe landmark index. -/
structure RigNode where
  name : JointName
  parent : Option JointName
  mpIndex : Option ℕ
  deriving Repr, DecidableEq

/-- The `RIG` table (MediapipePose33.ts), in source order. -/
def RIG : List RigNode :=
  [⟨JointName.Hips, none, none⟩,
   ⟨JointName.Spine, some JointName.Hips, none⟩,
   ⟨JointName.Neck, some JointName.Spine, none⟩,
   ⟨JointName.Head, some JointName.Neck, some 0⟩,
   ⟨JointName.LeftShoulder, some JointName.Neck, some 11⟩,
   ⟨JointName.LeftElbow, some JointName.LeftShoulder, some 13⟩,
   ⟨JointName.LeftWrist, some JointName.LeftElbow, some 15⟩,
   ⟨JointName.RightShoulder, some JointName.Neck, some 12⟩,
   ⟨JointName.RightElbow, some JointName.RightShoulder, some 14⟩,
   ⟨JointName.RightWrist, some JointName.RightElbow, some 16⟩,
   ⟨JointName.LeftHip, some JointName.Hips, some 23⟩,
   ⟨JointName.LeftKnee, some JointName.LeftHip, some 25⟩,
   ⟨JointName.LeftAnkle, some JointName.LeftKnee, some 27⟩,
   ⟨JointName.RightHip, some JointName.Hips, some 24⟩,
   ⟨JointName.RightKnee, some JointName.RightHip, some 26⟩,
   ⟨JointName.RightAnkle, some JointName.RightKnee, some 28⟩]

/-- A joint pose: one position per joint (`JointPose`). -/
def JointPose := JointName → Vec3

/-- A pose frame as the exporters see it. -/
structure PoseFrameR where
  ts : ℝ
  landmarks : List ℝ

/-- `lmAt(buf, index)` (Landmark.ts): the quadruple at stride-4 offset.
Out-of-range reads are `undefined` (then NaN) in JS; the model reads 0, and
the theorems about well-formed frames restrict the length so that the
default is never taken. -/
def lmAt (buf : List ℝ) (index : ℕ) : ℝ × ℝ × ℝ × ℝ :=
  (buf.getD (index * 4) 0, buf.getD (index * 4 + 1) 0,
   buf.getD (index * 4 + 2) 0, buf.getD (index * 4 + 3) 0)

/-- `mpToWorld(buf, i, opts)` (MediapipePose33.ts): recentre, flip y,
negate z, scale. -/
def mpToWorld (buf : List ℝ) (i : ℕ) (scale : ℝ) : Vec3 :=
  let q := lmAt buf i
  v3 ((q.1 - 0.5) * scale) ((0.5 - q.2.1) * scale) (-q.2.2.1 * scale)

/-- `midpoint(a, b)` (MediapipePose33.ts). -/
def midpoint (a b : Vec3) : Vec3 := mul (add a b) 0.5

/-- `mp33ToJointPose(buf, opts)` (MediapipePose33.ts): derived joints
(hips/neck midpoints, spine interpolation) plus direct mappings.  The
landmark indices are the `MP33` constants. -/
def mp33ToJointPose (buf : List ℝ) (scale : ℝ) : JointPose :=
  let lhip := mpToWorld buf 23 scale
  let rhip := mpToWorld buf 24 scale
  let lsho := mpToWorld buf 11 scale
  let rsho := mpToWorld buf 12 scale
  let hips := midpoint lhip rhip
  let neck := midpoint lsho rsho
  let spine := add hips (mul (sub neck hips) 0.5)
  fun j =>
    match j with
    | JointName.Hips => hips
    | JointName.Spine => spine
    | JointName.Neck => neck
    | JointName.Head => mpToWorld buf 0 scale
    | JointName.LeftShoulder => mpToWorld buf 11 scale
    | JointName.LeftElbow => mpToWorld buf 13 scale
    | JointName.LeftWrist => mpToWorld buf 15 scale
    | JointName.RightShoulder => mpToWorld buf 12 scale
    | JointName.RightElbow => mpToWorld buf 14 scale
    | JointName.RightWrist => mpToWorld buf 16 scale
    | JointName.LeftHip => mpToWorld buf 23 scale
    | JointName.LeftKnee => mpToWorld buf 25 scale
    | JointName.LeftAnkle => mpToWorld buf 27 scale
    | JointName.RightHip => mpToWorld buf 24 scale
    | JointName.RightKnee => mpToWorld buf 26 scale
    | JointName.RightAnkle => mpToWorld buf 28 scale

/-! ### BVH writer (domain/mocap/pipeline/export/BVHWriter.ts) -/

/-- `Quat` (BVHWriter.ts, line 20). -/
structure Quat where
  w : ℝ
  x : ℝ
  y : ℝ
  z : ℝ

/-- `quatNormalize(q)` (lines 22-25): the magnitude guard `|| 1` replaces a
zero magnitude by 1. -/
def quatNormalize (q : Quat) : Quat :=
  let m0 := Real.sqrt (q.w * q.w + q.x * q.x + q.y * q.y + q.z * q.z)
  let m := if m0 = 0 then 1 else m0
  ⟨q.w / m, q.x / m, q.y / m, q.z / m⟩

/-- `quatFromTo(a, b)` (lines 27-43): the rotation carrying direction `a`
onto direction `b`, with the antiparallel branch picking an orthogonal
axis. -/
def quatFromTo (a b : Vec3) : Quat :=
  let v0 := norm a
  let v1 := norm b
  let d := clamp (dot v0 v1) (-1) 1
  if d < -0.999999 then
    let axis := norm (if |v0.x| < 0.1 then cross v0 (v3 1 0 0) else cross v0 (v3 0 1 0))
    quatNormalize ⟨0, axis.x, axis.y, axis.z⟩
  else
    let c := cross v0 v1
    quatNormalize ⟨1 + d, c.x, c.y, c.z⟩

/-- `quatMul(a, b)` (lines 45-52). -/
def quatMul (a b : Quat) : Quat :=
  ⟨a.w * b.w - a.x * b.x - a.y * b.y - a.z * b.z,
   a.w * b.x + a.x * b.w + a.y * b.z - a.z * b.y,
   a.w * b.y - a.x * b.z + a.y * b.w + a.z * b.x,
   a.w * b.z + a.x * b.y - a.y * b.x + a.z * b.w⟩

/-- `quatInv(q)` (lines 54-57): conjugate of a unit quaternion. -/
def quatInv (q : Quat) : Quat :=
  ⟨q.w, -q.x, -q.y, -q.z⟩

/-- An Euler-angle triple in degrees. -/
structure EulerDeg where
  x : ℝ
  y : ℝ
  z : ℝ

/-- `quatToEulerZXYDeg(q)` (lines 65-90): closed-form ZXY extraction from
the rotation matrix, with the `asin` argument clamped to [-1, 1]. -/
def quatToEulerZXYDeg (q : Quat) : EulerDeg :=
  let w := q.w
  let x := q.x
  let y := q.y
  let z := q.z
  let m12 := 2 * (x * y - z * w)
  let m22 := 1 - 2 * (x * x + z * z)
  let m31 := 2 * (x * z - y * w)
  let m32 := 2 * (y * z + x * w)
  let m33 := 1 - 2 * (x * x + y * y)
  let xRad := Real.arcsin (clamp m32 (-1) 1)
  let zRad := atan2 (-m12) m22
  let yRad := atan2 (-m31) m33
  let toDeg := fun (r : ℝ) => r * 180 / Real.pi
  ⟨toDeg xRad, toDeg yRad, toDeg zRad⟩

/-- Zero-padding of a natural number to six digits (the fractional part of
`toFixed(6)`). -/
def pad6 (k : ℕ) : String :=
  String.mk (List.replicate (6 - (toString k).length) '0') ++ toString k

/-- Model of JavaScript `v.toFixed(6)`: six fractional digits, rounding to
nearest with ties towards the larger value on the magnitude (the ES
`toFixed` rule), sign prefix for negative inputs.  Exact binary floating
point is outside the real-number model. -/
def toFixed6 (v : ℝ) : String :=
  let sgn := if v < 0 then "-" else ""
  let n : ℕ := (round (|v| * 1000000) : ℤ).toNat
  sgn ++ toString (n / 1000000) ++ "." ++ pad6 (n % 1000000)

/-- `fmt(n)` (lines 92-96): snap magnitudes below 1e-8 to exactly zero, then
`toFixed(6)`. -/
def fmt (n : ℝ) : String :=
  let v := if |n| < 1e-8 then 0 else n
  toFixed6 v

/-- `childrenOf(name)` (lines 98-100). -/
def childrenOf (name : JointName) : List JointName :=
  (RIG.filter fun r => r.parent == some name).map (fun r => r.name)

/-- `getRoot()` (lines 106-108). -/
def getRoot : JointName := JointName.Hips

/-- The TS joint names, for the hierarchy text. -/
def jointNameStr (j : JointName) : String :=
  match j with
  | JointName.Hips => "Hips"
  | JointName.Spine => "Spine"
  | JointName.Neck => "Neck"
  | JointName.Head => "Head"
  | JointName.LeftShoulder => "LeftShoulder"
  | JointName.LeftElbow => "LeftElbow"
  | JointName.LeftWrist => "LeftWrist"
  | JointName.RightShoulder => "RightShoulder"
  | JointName.RightElbow => "RightElbow"
  | JointName.RightWrist => "RightWrist"
  | JointName.LeftHip => "LeftHip"
  | JointName.LeftKnee => "LeftKnee"
  | JointName.LeftAnkle => "LeftAnkle"
  | JointName.RightHip => "RightHip"
  | JointName.RightKnee => "RightKnee"
  | JointName.RightAnkle => "RightAnkle"

/-- `buildRestOffsets(rest)` (lines 110-120): each joint's rest position
minus its parent's; the root gets the origin. -/
def buildRestOffsets (rest : JointPose) : JointName → Vec3 :=
  fun j =>
    match RIG.find? (fun r => r.name == j) with
    | some node =>
      match node.parent with
      | none => v3 0 0 0
      | some parent => sub (rest j) (rest parent)
    | none => v3 0 0 0

/-- `localRotation(rest, cur, joint)` (lines 127-139): identity for leaves
and degenerate bone directions, else the quaternion from the rest bone
direction (joint to first child) to the current bone direction. -/
def localRotation (rest cur : JointPose) (joint : JointName) : Quat :=
  match childrenOf joint with
  | [] => ⟨1, 0, 0, 0⟩
  | child :: _ =>
    let restDir := sub (rest child) (rest joint)
    let curDir := sub (cur child) (cur joint)
    if len restDir < 1e-6 ∨ len curDir < 1e-6 then ⟨1, 0, 0, 0⟩
    else quatFromTo restDir curDir

/-- The recursive `writeJoint` of `writeHierarchy` (lines 151-176), with a
fuel bound on the recursion depth; 16 exceeds the depth of the 16-joint
rig. -/
def writeJointLines (fuel : ℕ) (offsets : JointName → Vec3) (name : JointName)
    (indent : ℕ) : List String :=
  match fuel with
  | 0 => []
  | fuel + 1 =>
    let pad := String.join (List.replicate indent "  ")
    match childrenOf name with
    | [] =>
      [pad ++ "End Site", pad ++ "\x7b",
       pad ++ "  OFFSET 0.000000 0.000000 0.000000", pad ++ "\x7d"]
    | kids =>
      kids.flatMap fun k =>
        let koff := offsets k
        [pad ++ "JOINT " ++ jointNameStr k,
         pad ++ "\x7b",
         pad ++ "  OFFSET " ++ fmt koff.x ++ " " ++ fmt koff.y ++ " " ++ fmt koff.z,
         pad ++ "  CHANNELS 3 Zrotation Xrotation Yrotation"]
        ++ writeJointLines fuel offsets k (indent + 1)
        ++ [pad ++ "\x7d"]

/-- `writeHierarchy(offsets)` (lines 141-182), as its list of lines. -/
def writeHierarchyLines (offsets : JointName → Vec3) : List String :=
  ["HIERARCHY", "ROOT " ++ jointNameStr getRoot, "\x7b",
   "  OFFSET 0.000000 0.000000 0.000000",
   "  CHANNELS 6 Xposition Yposition Zposition Zrotation Xrotation Yrotation"]
  ++ writeJointLines 16 offsets getRoot 1
  ++ ["\x7d"]

/-- The recursive `pushJoint` of `writeMotion` (lines 212-220): depth-first
over the children, three rotation channel values per joint, matching the
hierarchy emission order.  Fuel as in `writeJointLines`. -/
def pushJointValues (fuel : ℕ) (rest cur : JointPose) (j : JointName) : List ℝ :=
  match fuel with
  | 0 => []
  | fuel + 1 =>
    (childrenOf j).flatMap fun k =>
      let q := localRotation rest cur k
      let e := quatToEulerZXYDeg q
      [e.z, e.x, e.y] ++ pushJointValues fuel rest cur k

/-- The `values` array of one motion row (lines 197-221): root translation
relative to the rest root, root rotation, then the depth-first joint
rotations. -/
def motionValues (rest : JointPose) (restRoot : Vec3) (cur : JointPose) : List ℝ :=
  let rp := cur getRoot
  let re := quatToEulerZXYDeg (localRotation rest cur getRoot)
  [rp.x - restRoot.x, rp.y - restRoot.y, rp.z - restRoot.z, re.z, re.x, re.y]
  ++ pushJointValues 16 rest cur getRoot

/-- `writeMotion(frames, rest, fps, scale)` (lines 184-227) as its list of
lines.  The source computes `restPose` from `frames[0]` unconditionally
(a TypeError on an empty list, unreachable through
`fromMediapipePoseFrames`); the model emits no rows for an empty list. -/
def writeMotionLines (frames : List PoseFrameR) (rest : JointPose)
    (fps scale : ℝ) : List String :=
  ["MOTION", "Frames: " ++ toString frames.length,
   "Frame Time: " ++ toFixed6 (1 / fps)]
  ++ match frames with
     | [] => []
     | f0 :: _ =>
       let restRoot := mp33ToJointPose f0.landmarks scale getRoot
       frames.map fun fr =>
         let cur := mp33ToJointPose fr.landmarks scale
         String.intercalate " " ((motionValues rest restRoot cur).map fmt)

/-- The export error taxonomy entry for an empty export (§7 of the spec);
the source throws `new Error("No frames")`. -/
inductive ExportError
  | emptyExport
  deriving Repr, DecidableEq

/-- `BVHWriter.fromMediapipePoseFrames(frames, opts)` (lines 234-247), with
the `fps`/`scale` defaults already applied by the caller. -/
def fromMediapipePoseFrames (frames : List PoseFrameR) (fps scale : ℝ) :
    Except ExportError String :=
  match frames with
  | [] => Except.error ExportError.emptyExport
  | f0 :: _ =>
    let rest := mp33ToJointPose f0.landmarks scale
    let offsets := buildRestOffsets rest
    let hierarchy := String.intercalate "\n" (writeHierarchyLines offsets)
    let motion := String.intercalate "\n" (writeMotionLines frames rest fps scale)
    Except.ok (hierarchy ++ "\n" ++ motion ++ "\n")

/-! ### Claim C8: a one-frame export is all zeros -/

theorem dot_self_nonneg (v : Vec3) : 0 ≤ dot v v := by
  unfold dot
  nlinarith [mul_self_nonneg v.x, mul_self_nonneg v.y, mul_self_nonneg v.z]

theorem cross_self (v : Vec3) : cross v v = ⟨0, 0, 0⟩ := by
  unfold cross
  simp only [Vec3.mk.injEq]
  refine ⟨by ring, by ring, by ring⟩

theorem quatFromTo_self (v : Vec3) (h : ¬ len v < 1e-6) :
    quatFromTo v v = ⟨1, 0, 0, 0⟩ := by
  have hge : (1e-6 : ℝ) ≤ len v := not_lt.mp h
  have hl9 : ¬ len v < 1e-9 := by
    intro hlt
    linarith
  have hlnz : len v ≠ 0 := by
    intro h0
    rw [h0] at hge
    norm_num at hge
  have hdd : len v * len v = dot v v := Real.mul_self_sqrt (dot_self_nonneg v)
  have hnorm : norm v = ⟨v.x / len v, v.y / len v, v.z / len v⟩ := by
    unfold norm
    rw [if_neg hl9]
  have hdot : dot (norm v) (norm v) = 1 := by
    rw [hnorm]
    unfold dot
    dsimp only
    field_simp
    unfold dot at hdd
    linarith
  unfold quatFromTo
  dsimp only
  rw [hdot]
  have hclamp : clamp 1 (-1) 1 = 1 := by
    unfold clamp
    norm_num
  rw [hclamp]
  rw [if_neg (by norm_num)]
  rw [cross_self]
  dsimp only
  unfold quatNormalize
  dsimp only
  have h4 : Real.sqrt ((1 + 1) * (1 + 1) + 0 * 0 + 0 * 0 + 0 * 0) = 2 := by
    rw [show ((1 : ℝ) + 1) * (1 + 1) + 0 * 0 + 0 * 0 + 0 * 0 = 2 ^ 2 by norm_num]
    exact Real.sqrt_sq (by norm_num)
  rw [h4]
  rw [if_neg (by norm_num)]
  simp only [Quat.mk.injEq]
  norm_num

theorem localRotation_self (rest : JointPose) (j : JointName) :
    localRotation rest rest j = ⟨1, 0, 0, 0⟩ := by
  unfold localRotation
  cases hk : childrenOf j with
  | nil => rfl
  | cons child ks =>
    dsimp only
    by_cases hlen : len (sub (rest child) (rest j)) < 1e-6
    · rw [if_pos (Or.inl hlen)]
    · rw [if_neg (by rw [or_self]; exact hlen)]
      exact quatFromTo_self _ hlen

theorem eulerDeg_identity : quatToEulerZXYDeg ⟨1, 0, 0, 0⟩ = ⟨0, 0, 0⟩ := by
  unfold quatToEulerZXYDeg atan2 clamp
  dsimp only
  simp only [EulerDeg.mk.injEq]
  norm_num [Real.arcsin_zero, Real.arctan_zero]

theorem fmt_zero : fmt 0 = "0.000000" := by
  unfold fmt
  rw [if_pos (by norm_num : |(0 : ℝ)| < 1e-8)]
  unfold toFixed6
  dsimp only
  rw [if_neg (by norm_num : ¬ (0 : ℝ) < 0)]
  rw [show |(0 : ℝ)| * 1000000 = 0 by norm_num]
  rw [round_zero]
  rfl

/-- Channel-value count of the depth-first motion recursion. -/
def pjCount (fuel : ℕ) (j : JointName) : ℕ :=
  match fuel with
  | 0 => 0
  | fuel + 1 => ((childrenOf j).map fun k => 3 + pjCount fuel k).sum

theorem pushJointValues_self (fuel : ℕ) (rest : JointPose) (j : JointName) :
    pushJointValues fuel rest rest j = List.replicate (pjCount fuel j) 0 := by
  induction fuel generalizing j with
  | zero => rfl
  | succ fuel ih =>
    show (childrenOf j).flatMap _ = List.replicate (((childrenOf j).map _).sum) 0
    generalize childrenOf j = kids
    induction kids with
    | nil => rfl
    | cons k ks ihk =>
      rw [List.flatMap_cons, List.map_cons, List.sum_cons, ihk]
      rw [localRotation_self]
      dsimp only
      rw [eulerDeg_identity]
      dsimp only
      rw [ih k]
      rw [show (3 + pjCount fuel k) + ((ks.map fun k2 => 3 + pjCount fuel k2).sum)
          = 3 + (pjCount fuel k + (ks.map fun k2 => 3 + pjCount fuel k2).sum) by omega]
      rw [List.replicate_add, List.replicate_add]
      simp [List.append_assoc, List.replicate_succ]

theorem motionValues_self (rest : JointPose) :
    motionValues rest (rest getRoot) rest = List.replicate 51 0 := by
  unfold motionValues
  rw [localRotation_self, eulerDeg_identity, pushJointValues_self]
  have hc : pjCount 16 getRoot = 45 := by decide
  rw [hc]
  dsimp only
  rw [show (51 : ℕ) = 6 + 45 by norm_num, List.replicate_add]
  rw [sub_self, sub_self, sub_self]
  rfl

/-- C8: for a one-frame export — the single frame serves as its own rest
pose, so every joint's current position equals its rest position — the
`BVHWriter` motion section consists of the three headers and one row whose
root translation channels and all 45 rotation channels are exactly
`0.000000` (the rest-to-current rotation is the identity quaternion, which
converts to Euler angles (0, 0, 0)).  The rest pose passed here is the one
`fromMediapipePoseFrames` computes from the same frame; the length bound
keeps every landmark access of the 33-landmark layout in range. -/
theorem writeMotion_single_frame_zero (ts fps scale : ℝ) (buf : List ℝ)
    (_hlen : 132 ≤ buf.length) :
    writeMotionLines [⟨ts, buf⟩] (mp33ToJointPose buf scale) fps scale
      = ["MOTION", "Frames: 1", "Frame Time: " ++ toFixed6 (1 / fps),
         String.intercalate " " (List.replicate 51 "0.000000")] := by
  unfold writeMotionLines
  simp only [List.map_cons, List.map_nil]
  rw [motionValues_self, List.map_replicate, fmt_zero]
  simp only [List.length_cons, List.length_nil, Nat.zero_add]
  rfl

/-- Witness for C8: a 33-landmark frame with every coordinate one half. -/
theorem writeMotion_single_frame_zero_witness :
    writeMotionLines [⟨0, List.replicate 132 0.5⟩]
        (mp33ToJointPose (List.replicate 132 0.5) 100) 30 100
      = ["MOTION", "Frames: 1", "Frame Time: " ++ toFixed6 (1 / 30),
         String.intercalate " " (List.replicate 51 "0.000000")] :=
  writeMotion_single_frame_zero 0 30 100 (List.replicate 132 0.5) (by simp)

end

end BVH

/-! ## TakeExporter's internal BVH builder
(domain/mocap/pipeline/export/TakeExporter.ts, the `BVH BUILD` block)

This is the BVH path actually driven by `exportTake`.  It redefines the
vector/quaternion helpers locally (the types coincide with the
`BVHWriter` ones, so the model reuses `Vec3`, `Quat`, `JointName`, `RIG`
and `toFixed6`).  JavaScript `NaN`/`Infinity` guards (`Number.isFinite`,
`safe`) are identities over `ℝ`. -/

namespace TakeExporter

open BVH

noncomputable section

/-- `vAdd(a, b)`. -/
def vAdd (a b : Vec3) : Vec3 := ⟨a.x + b.x, a.y + b.y, a.z + b.z⟩

/-- `vSub(a, b)`. -/
def vSub (a b : Vec3) : Vec3 := ⟨a.x - b.x, a.y - b.y, a.z - b.z⟩

/-- `vMul(a, s)`. -/
def vMul (a : Vec3) (s : ℝ) : Vec3 := ⟨a.x * s, a.y * s, a.z * s⟩

/-- `vLen(a)`. -/
def vLen (a : Vec3) : ℝ := Real.sqrt (a.x * a.x + a.y * a.y + a.z * a.z)

/-- `vNorm(a)` with its 1e-8 guard. -/
def vNorm (a : Vec3) : Vec3 :=
  let l := vLen a
  if l < 1e-8 then ⟨0, 0, 0⟩ else ⟨a.x / l, a.y / l, a.z / l⟩

/-- `vDot(a, b)`. -/
def vDot (a b : Vec3) : ℝ := a.x * b.x + a.y * b.y + a.z * b.z

/-- `vCross(a, b)`. -/
def vCross (a b : Vec3) : Vec3 :=
  ⟨a.y * b.z - a.z * b.y, a.z * b.x - a.x * b.z, a.x * b.y - a.y * b.x⟩

/-- `qNorm(q)`: identity quaternion when the magnitude is below 1e-8. -/
def qNorm (q : Quat) : Quat :=
  let l := Real.sqrt (q.w * q.w + q.x * q.x + q.y * q.y + q.z * q.z)
  if l < 1e-8 then ⟨1, 0, 0, 0⟩ else ⟨q.w / l, q.x / l, q.y / l, q.z / l⟩

/-- `qFromTo(from, to)`: identity when nearly parallel, orthogonal-axis flip
when nearly antiparallel. -/
def qFromTo (a b : Vec3) : Quat :=
  let f := vNorm a
  let t := vNorm b
  let d := vDot f t
  if d > 0.999999 then ⟨1, 0, 0, 0⟩
  else if d < -0.999999 then
    let axis := vNorm (if |f.x| < 0.9 then vCross f ⟨1, 0, 0⟩ else vCross f ⟨0, 1, 0⟩)
    qNorm ⟨0, axis.x, axis.y, axis.z⟩
  else
    let axis := vCross f t
    qNorm ⟨1 + d, axis.x, axis.y, axis.z⟩

/-- `quatToEulerZXY(qIn)`: normalized input, ZXY extraction with an explicit
gimbal-lock branch when `cos(ex)` vanishes. -/
def quatToEulerZXY (qIn : Quat) : EulerDeg :=
  let q := qNorm qIn
  let w := q.w
  let x := q.x
  let y := q.y
  let z := q.z
  let m00 := 1 - 2 * (y * y + z * z)
  let m01 := 2 * (x * y - z * w)
  let m11 := 1 - 2 * (x * x + z * z)
  let m20 := 2 * (x * z - y * w)
  let m21 := 2 * (y * z + x * w)
  let m22 := 1 - 2 * (x * x + y * y)
  let ex := Real.arcsin (clamp m21 (-1) 1)
  let cx := Real.cos ex
  let ez := if |cx| > 1e-6 then atan2 (-m01) m11 else atan2 0 m00
  let ey := if |cx| > 1e-6 then atan2 (-m20) m22 else 0
  let rad2deg := 180 / Real.pi
  ⟨ex * rad2deg, ey * rad2deg, ez * rad2deg⟩

/-- `midpoint(a, b)` (TakeExporter.ts). -/
def midpoint (a b : Vec3) : Vec3 :=
  ⟨(a.x + b.x) * 0.5, (a.y + b.y) * 0.5, (a.z + b.z) * 0.5⟩

/-- `buildRigPose(frame)`: hip-centred, shoulder-width-normalized, y-flipped
rig positions. -/
def buildRigPose (frame : PoseFrameR) : JointName → Vec3 :=
  let lm := fun (i : ℕ) =>
    let q := lmAt frame.landmarks i
    (⟨q.1, q.2.1, q.2.2.1⟩ : Vec3)
  let lhip := lm 23
  let rhip := lm 24
  let lsho := lm 11
  let rsho := lm 12
  let nose := lm 0
  let hips := midpoint lhip rhip
  let neck := midpoint lsho rsho
  let shoulderWidth := max 1e-4 (vLen (vSub lsho rsho))
  let scale := 1 / shoulderWidth
  let toSpace := fun (p : Vec3) =>
    let c := vSub p hips
    (⟨c.x * scale, -c.y * scale, c.z * scale⟩ : Vec3)
  fun j =>
    match j with
    | JointName.Hips => ⟨0, 0, 0⟩
    | JointName.Neck => toSpace neck
    | JointName.Spine => vMul (toSpace neck) 0.6
    | JointName.Head => toSpace nose
    | JointName.LeftShoulder => toSpace (lm 11)
    | JointName.LeftElbow => toSpace (lm 13)
    | JointName.LeftWrist => toSpace (lm 15)
    | JointName.RightShoulder => toSpace (lm 12)
    | JointName.RightElbow => toSpace (lm 14)
    | JointName.RightWrist => toSpace (lm 16)
    | JointName.LeftHip => toSpace lhip
    | JointName.LeftKnee => toSpace (lm 25)
    | JointName.LeftAnkle => toSpace (lm 27)
    | JointName.RightHip => toSpace rhip
    | JointName.RightKnee => toSpace (lm 26)
    | JointName.RightAnkle => toSpace (lm 28)

/-- `buildChildren()`: children of each joint, in `RIG` order (the source
builds the same map by pushing over `RIG`). -/
def buildChildren (j : JointName) : List JointName :=
  (RIG.filter fun r => r.parent == some j).map fun r => r.name

/-- `parentOf(j)`. -/
def parentOf (j : JointName) : Option JointName :=
  match RIG.find? (fun r => r.name == j) with
  | some node => node.parent
  | none => none

/-- The recursive `dfs` of `bvhOrder()`, fuel-bounded as before. -/
def bvhOrderAux (fuel : ℕ) (j : JointName) : List JointName :=
  match fuel with
  | 0 => []
  | fuel + 1 => (buildChildren j).flatMap fun c => c :: bvhOrderAux fuel c

/-- `bvhOrder()`: depth-first joint order from the root's children. -/
def bvhOrder : List JointName := bvhOrderAux 16 JointName.Hips

/-- Lookup in the possibly-absent rest pose: models
`(poses[0] ?? {})[j] ?? {x: 0, y: 0, z: 0}`. -/
def restLookup (restOpt : Option (JointName → Vec3)) (j : JointName) : Vec3 :=
  match restOpt with
  | some rp => rp j
  | none => ⟨0, 0, 0⟩

/-- `emitJoint(lines, joint, indent, children, rest)` as a line list;
`safe(v)` is the identity over `ℝ`. -/
def emitJointLines (fuel : ℕ) (restOpt : Option (JointName → Vec3))
    (joint : JointName) (indent : ℕ) : List String :=
  match fuel with
  | 0 => []
  | fuel + 1 =>
    let pad := String.join (List.replicate indent "  ")
    (buildChildren joint).flatMap fun c =>
      let parentPos := restLookup restOpt joint
      let childPos := restLookup restOpt c
      let off := vSub childPos parentPos
      [pad ++ "JOINT " ++ jointNameStr c,
       pad ++ "\x7b",
       pad ++ "  OFFSET " ++ toFixed6 off.x ++ " " ++ toFixed6 off.y ++ " " ++ toFixed6 off.z,
       pad ++ "  CHANNELS 3 Zrotation Xrotation Yrotation"]
      ++ emitJointLines fuel restOpt c (indent + 1)
      ++ (if (buildChildren c).isEmpty then
            [pad ++ "  End Site", pad ++ "  \x7b",
             pad ++ "    OFFSET 0.000000 0.000000 0.000000", pad ++ "  \x7d"]
          else [])
      ++ [pad ++ "\x7d"]

/-- `emitHierarchy(rest, children)` as a line list. -/
def emitHierarchyLines (restOpt : Option (JointName → Vec3)) : List String :=
  ["HIERARCHY", "ROOT Hips", "\x7b", "  OFFSET 0 0 0",
   "  CHANNELS 6 Xposition Yposition Zposition Zrotation Xrotation Yrotation"]
  ++ emitJointLines 16 restOpt JointName.Hips 1
  ++ ["\x7d"]

/-- One motion row of `buildBVH` (lines 542-561): zero root translation and
rotation, then per non-root joint in `bvhOrder` the ZXY Euler angles of the
rest-to-current bone rotation. -/
def teMotionRow (restOpt : Option (JointName → Vec3))
    (pose : JointName → Vec3) : List ℝ :=
  ([0, 0, 0, 0, 0, 0] : List ℝ)
  ++ bvhOrder.flatMap fun j =>
    match parentOf j with
    | none => []
    | some parent =>
      let restVec := vSub (restLookup restOpt j) (restLookup restOpt parent)
      let curVec := vSub (pose j) (pose parent)
      let q := qFromTo restVec curVec
      let e := quatToEulerZXY q
      [e.z, e.x, e.y]

/-- `buildBVH(frames, fps)` (lines 527-567) as its line list.  With zero
frames there is no throw: the rest pose falls back to `{}` (every lookup
zero), the hierarchy is still emitted, the motion section reports
`Frames: 0` and has no rows.  The `Number.isFinite` guard on row values is
the identity over `ℝ`. -/
def buildBVHLines (frames : List PoseFrameR) (fps : ℝ) : List String :=
  let poses := frames.map buildRigPose
  let restOpt := poses.head?
  emitHierarchyLines restOpt
  ++ ["MOTION", "Frames: " ++ toString poses.length,
      "Frame Time: " ++ toFixed6 (1 / fps)]
  ++ poses.map fun pose =>
    String.intercalate " " ((teMotionRow restOpt pose).map fun n => toFixed6 n)

/-- `buildBVH` as the final text. -/
def buildBVH (frames : List PoseFrameR) (fps : ℝ) : String :=
  String.intercalate "\n" (buildBVHLines frames fps)

/-- Counterexample to C9 as stated: the claim demands that EVERY invocation
of the BVH exporter with zero frames raises an EmptyExport failure, but the
`buildBVH` path of `TakeExporter.exportTake` with zero frames produces a
document instead — its output contains the motion header line `Frames: 0`
(and no error is possible: `buildBVH` is total). -/
theorem buildBVH_zero_frames_emits :
    "Frames: 0" ∈ buildBVHLines [] 30 := by
  have h : buildBVHLines ([] : List PoseFrameR) 30
      = emitHierarchyLines none
        ++ ["MOTION", "Frames: 0", "Frame Time: " ++ toFixed6 (1 / 30)]
        ++ [] := rfl
  rw [h]
  simp

/-- C9 (amended): `BVHWriter.fromMediapipePoseFrames` with zero frames fails
with the EmptyExport error (`throw new Error("No frames")`), but the
`buildBVH` path used by `TakeExporter.exportTake` does not fail on zero
frames: it emits a degenerate document whose motion section reports
`Frames: 0` with no rows. -/
theorem bvh_export_zero_frames (fps scale : ℝ) :
    fromMediapipePoseFrames [] fps scale = Except.error ExportError.emptyExport ∧
    "Frames: 0" ∈ buildBVHLines [] fps := by
  constructor
  · rfl
  · have h : buildBVHLines ([] : List PoseFrameR) fps
        = emitHierarchyLines none
          ++ ["MOTION", "Frames: 0", "Frame Time: " ++ toFixed6 (1 / fps)]
          ++ [] := rfl
    rw [h]
    simp

end

end TakeExporter

end Mocap
